import Mathlib

/-!
Shallow embedding of the `ytd` download-history engine
(`src/ytd/history/storage.py`, plus the decision driver in `src/ytd/cli.py`
and the history-recording step in `src/ytd/downloader.py`), together with
proofs settling the specification claims about it.

Python strings are embedded as `List Char` at the algorithmic core (the
identifier normalizer) and as Lean `String` at the store level.  External
library behaviour that the claims quantify over (e.g.
`datetime.fromtimestamp`, whose result depends on the host timezone) is
passed in as a function parameter.
-/

namespace Ytd

/-! ### Python string primitives -/

/-- ASCII whitespace removed by Python `str.strip()`. -/
def isPySpace (c : Char) : Bool :=
  c == ' ' || c == '\t' || c == '\n' || c == '\r' || c == '\x0b' || c == '\x0c'

/-- `str.strip()`: drop leading and trailing whitespace. -/
def pyStrip (l : List Char) : List Char :=
  ((l.dropWhile isPySpace).reverse.dropWhile isPySpace).reverse

/-- ASCII lowercase conversion (model of `str.lower()` on the ASCII
identifiers, hostnames and status strings this program manipulates). -/
def lowerAscii (c : Char) : Char :=
  if 65 ≤ c.toNat && c.toNat ≤ 90 then Char.ofNat (c.toNat + 32) else c

/-- `str.lower()` on an embedded string. -/
def pyLower (l : List Char) : List Char := l.map lowerAscii

/-- Character class `[A-Za-z0-9_-]` of the platform-ID regexes. -/
def isIdChar (c : Char) : Bool :=
  (65 ≤ c.toNat && c.toNat ≤ 90) || (97 ≤ c.toNat && c.toNat ≤ 122) ||
    (48 ≤ c.toNat && c.toNat ≤ 57) || c == '_' || c == '-'

/-- Split at the first occurrence of `c`: returns the part before it and,
when `c` occurs, the part after it. -/
def splitAtFirst (c : Char) : List Char → List Char × Option (List Char)
  | [] => ([], none)
  | x :: rest =>
    if x == c then ([], some rest)
    else
      let (pre, post) := splitAtFirst c rest
      (x :: pre, post)

/-- Does `sub` occur as a contiguous subsequence of `l` (Python `in`)? -/
def containsSeq (sub : List Char) : List Char → Bool
  | [] => sub.isEmpty
  | c :: rest => sub.isPrefixOf (c :: rest) || containsSeq sub rest

/-! ### Platform-ID extraction (`_extract_youtube_id`)

The fixed regexes of the source:
`^[A-Za-z0-9_-]{11}$` (fullmatch), and the `re.search` patterns
`[?&]v=([A-Za-z0-9_-]{11})`, `youtu\.be/([A-Za-z0-9_-]{11})`,
`youtube\.com/(?:shorts|embed|live)/([A-Za-z0-9_-]{11})`, embedded as
explicit left-to-right scans. -/

/-- Match `[A-Za-z0-9_-]{11}` at the head of `l`: exactly the next 11
characters, all from the class. -/
def takeId (l : List Char) : Option (List Char) :=
  let cand := l.take 11
  if cand.length = 11 && cand.all isIdChar then some cand else none

/-- `re.search` of `[?&]v=([A-Za-z0-9_-]{11})`: leftmost position where a
`?` or `&` is followed by `v=` and 11 ID characters. -/
def searchVQ : List Char → Option (List Char)
  | [] => none
  | c :: rest =>
    if c == '?' || c == '&' then
      match rest with
      | v :: e :: tail =>
        if v == 'v' && e == '=' then
          match takeId tail with
          | some i => some i
          | none => searchVQ rest
        else searchVQ rest
      | _ => searchVQ rest
    else searchVQ rest

/-- `re.search` of a literal followed by `([A-Za-z0-9_-]{11})` (the
`youtu\.be/` pattern): leftmost occurrence of the literal that is followed
by 11 ID characters. -/
def searchLitId (lit : List Char) : List Char → Option (List Char)
  | [] => none
  | c :: rest =>
    if lit.isPrefixOf (c :: rest) then
      match takeId ((c :: rest).drop lit.length) with
      | some i => some i
      | none => searchLitId lit rest
    else searchLitId lit rest

/-- The alternation `(?:shorts|embed|live)/` followed by 11 ID characters
(tried after the literal `youtube.com/`; the three alternatives start with
distinct characters, so at most one can match at a given position). -/
def altTail (l : List Char) : Option (List Char) :=
  if ("shorts/".toList).isPrefixOf l then takeId (l.drop 7)
  else if ("embed/".toList).isPrefixOf l then takeId (l.drop 6)
  else if ("live/".toList).isPrefixOf l then takeId (l.drop 5)
  else none

/-- `re.search` of `youtube\.com/(?:shorts|embed|live)/([A-Za-z0-9_-]{11})`. -/
def searchTube : List Char → Option (List Char)
  | [] => none
  | c :: rest =>
    if ("youtube.com/".toList).isPrefixOf (c :: rest) then
      match altTail ((c :: rest).drop 12) with
      | some i => some i
      | none => searchTube rest
    else searchTube rest

/-- `_extract_youtube_id(candidate)`: bare-ID fullmatch first, then the
three search patterns in order. -/
def extractYoutubeId (candidate : List Char) : Option (List Char) :=
  if candidate.isEmpty then none
  else
    let stripped := pyStrip candidate
    if stripped.length = 11 && stripped.all isIdChar then some stripped
    else
      match searchVQ stripped with
      | some i => some i
      | none =>
        match searchLitId ("youtu.be/".toList) stripped with
        | some i => some i
        | none => searchTube stripped

/-! ### URL normalization (`_normalize_url`)

`urllib.parse.urlparse`, `parse_qsl` and `urlunparse` are embedded for
the fragment of their behaviour this program exercises.  Percent-escapes
are decoded byte-wise (`%XX` to the character with that code), which
coincides with CPython's UTF-8 decoding on ASCII escapes. -/

/-- Result of `urlparse` (the 6-tuple). -/
structure PyUrl where
  scheme : List Char
  netloc : List Char
  path : List Char
  params : List Char
  query : List Char
  fragment : List Char
deriving Repr

/-- Valid characters of a URL scheme after the leading letter. -/
def isSchemeChar (c : Char) : Bool :=
  (65 ≤ c.toNat && c.toNat ≤ 90) || (97 ≤ c.toNat && c.toNat ≤ 122) ||
    (48 ≤ c.toNat && c.toNat ≤ 57) || c == '+' || c == '-' || c == '.'

/-- ASCII letter test (first character of a scheme). -/
def isAsciiAlpha (c : Char) : Bool :=
  (65 ≤ c.toNat && c.toNat ≤ 90) || (97 ≤ c.toNat && c.toNat ≤ 122)

/-- Split a scheme off the front: the text before the first `:` when it is
a well-formed scheme name (letter first, then letters/digits/`+-.`);
otherwise no scheme. -/
def splitScheme (l : List Char) : Option (List Char) × List Char :=
  match splitAtFirst ':' l with
  | (pre, some rest) =>
    if !pre.isEmpty && pre.all isSchemeChar && (pre.head?.elim false isAsciiAlpha) then
      (some (pyLower pre), rest)
    else (none, l)
  | (_, none) => (none, l)

/-- `urlparse`'s split of `;params` out of the last path segment. -/
def splitParams (l : List Char) : List Char × List Char :=
  if l.contains '/' then
    let segLen := (l.reverse.takeWhile (fun c => c != '/')).length
    let headLen := l.length - segLen
    match splitAtFirst ';' (l.drop headLen) with
    | (pre, some post) => (l.take headLen ++ pre, post)
    | (_, none) => (l, [])
  else
    match splitAtFirst ';' l with
    | (pre, some post) => (pre, post)
    | (_, none) => (l, [])

/-- `urllib.parse.urlparse`: scheme, then `//netloc` (up to `/?#`), then
fragment after the first `#`, then query after the first `?`, then
`;params` split out of the last path segment. -/
def pyUrlparse (l : List Char) : PyUrl :=
  let (schemeOpt, rest1) := splitScheme l
  let netlocSplit :=
    if rest1.take 2 = ['/', '/'] then
      let after := rest1.drop 2
      let nl := after.takeWhile (fun c => c != '/' && c != '?' && c != '#')
      (nl, after.drop nl.length)
    else ([], rest1)
  let (beforeFrag, fragOpt) := splitAtFirst '#' netlocSplit.2
  let (beforeQuery, queryOpt) := splitAtFirst '?' beforeFrag
  let (path, params) := splitParams beforeQuery
  { scheme := schemeOpt.getD [], netloc := netlocSplit.1, path := path,
    params := params, query := queryOpt.getD [], fragment := fragOpt.getD [] }

/-- Hex digit test for percent-escapes. -/
def isHexDigit (c : Char) : Bool :=
  (48 ≤ c.toNat && c.toNat ≤ 57) || (65 ≤ c.toNat && c.toNat ≤ 70) ||
    (97 ≤ c.toNat && c.toNat ≤ 102)

/-- Hex digit value. -/
def hexVal (c : Char) : Nat :=
  if 48 ≤ c.toNat && c.toNat ≤ 57 then c.toNat - 48
  else if 65 ≤ c.toNat && c.toNat ≤ 70 then c.toNat - 55
  else c.toNat - 87

/-- Percent-decoding (`unquote`): each `%XX` with two hex digits becomes
the character with code `XX`; malformed escapes are kept literally. -/
def pctDecode : List Char → List Char
  | [] => []
  | '%' :: a :: b :: rest =>
    if isHexDigit a && isHexDigit b then
      Char.ofNat (16 * hexVal a + hexVal b) :: pctDecode rest
    else '%' :: pctDecode (a :: b :: rest)
  | c :: rest => c :: pctDecode rest

/-- `unquote_plus`: `+` becomes a space, then percent-decoding. -/
def unquotePlus (l : List Char) : List Char :=
  pctDecode (l.map (fun c => if c == '+' then ' ' else c))

/-- `parse_qsl(query, keep_blank_values=True)`: split on `&`, drop empty
fields, split each field at its first `=` (a missing `=` yields an empty
value because blank values are kept), and unquote names and values. -/
def parseQsl (qs : List Char) : List (List Char × List Char) :=
  (qs.splitOn '&').filterMap fun fld =>
    if fld.isEmpty then none
    else
      match splitAtFirst '=' fld with
      | (n, some v) => some (unquotePlus n, unquotePlus v)
      | (n, none) => some (unquotePlus n, [])

/-- Code-point lexicographic strict order on embedded strings (Python
`<` on `str`). -/
def lexLt : List Char → List Char → Bool
  | [], [] => false
  | [], _ :: _ => true
  | _ :: _, [] => false
  | a :: as, b :: bs =>
    if a.toNat < b.toNat then true
    else if a == b then lexLt as bs else false

/-- Non-strict comparison of query items by `(key, value)` (the sort key
`lambda item: (item[0], item[1])`). -/
def pairLe (a b : List Char × List Char) : Bool :=
  lexLt a.1 b.1 || (a.1 == b.1 && !lexLt b.2 a.2)

/-- Stable insertion placing `x` after every element `≤` it. -/
def insertPair (x : List Char × List Char) :
    List (List Char × List Char) → List (List Char × List Char)
  | [] => [x]
  | y :: ys => if pairLe y x then y :: insertPair x ys else x :: y :: ys

/-- Stable sort of query items (Python `sorted`). -/
def sortPairs (items : List (List Char × List Char)) :
    List (List Char × List Char) :=
  items.foldl (fun acc x => insertPair x acc) []

/-- `"&".join(f"{key}={value}" ...)`. -/
def joinQuery (items : List (List Char × List Char)) : List Char :=
  List.intercalate ['&'] (items.map fun p => p.1 ++ '=' :: p.2)

/-- `re.sub(r"/+", "/", path)`: collapse every run of slashes to one. -/
def collapseSlashes : List Char → List Char
  | [] => []
  | [c] => [c]
  | a :: b :: rest =>
    if a == '/' && b == '/' then collapseSlashes (b :: rest)
    else a :: collapseSlashes (b :: rest)

/-- `urlunparse((scheme, netloc, path, "", query, ""))` via `urlunsplit`. -/
def pyUrlunparse (scheme netloc path query : List Char) : List Char :=
  let url := path
  let url :=
    if !netloc.isEmpty || url.take 2 = ['/', '/'] then
      let url := if !url.isEmpty && url.head? ≠ some '/' then '/' :: url else url
      '/' :: '/' :: (netloc ++ url)
    else url
  let url := if !scheme.isEmpty then scheme ++ ':' :: url else url
  if !query.isEmpty then url ++ '?' :: query else url

/-- `_normalize_url(candidate)`: guess a scheme for bare hosts, parse,
require a network location, default/lowercase pieces, collapse slash runs,
sort and reassemble the query, drop params and fragment. -/
def normalizeUrl (candidate : List Char) : Option (List Char) :=
  if candidate.isEmpty then none
  else
    let trimmed := pyStrip candidate
    if trimmed.isEmpty then none
    else
      let guess :=
        if !containsSeq ("://".toList) trimmed && trimmed.contains '.' then
          ("https://".toList) ++ trimmed
        else trimmed
      let parsed := pyUrlparse guess
      if parsed.netloc.isEmpty then none
      else
        let scheme := if parsed.scheme.isEmpty then "https".toList else parsed.scheme
        let netloc := pyLower parsed.netloc
        let path0 := collapseSlashes parsed.path
        let path := if path0.isEmpty then ['/'] else path0
        let qitems := parseQsl parsed.query
        let query := if qitems.isEmpty then [] else joinQuery (sortPairs qitems)
        let normalized := pyUrlunparse scheme netloc path query
        some (if normalized.getLast? = some '?' then normalized.dropLast else normalized)

/-! ### `normalize_history_id` -/

/-- `normalize_history_id(value)`: `None`/empty gives `None`; otherwise
strip, try platform-ID extraction (`"yt:<id>"`), then URL normalization,
then fall back to the trimmed raw string. -/
def normalize_history_id (value : Option String) : Option String :=
  match value with
  | none => none
  | some s =>
    if s = "" then none
    else
      let candidate := pyStrip s.toList
      if candidate.isEmpty then none
      else
        match extractYoutubeId candidate with
        | some i => some (String.mk ('y' :: 't' :: ':' :: i))
        | none =>
          match normalizeUrl candidate with
          | some u => some (String.mk u)
          | none => some (String.mk candidate)

/-! ### Event Store (`storage.py` state level)

The SQLite table `downloads` is embedded as a list of rows in insertion
(rowid) order; the module-level `_DB_PATH` as an optional path.  Raising
Python code is embedded in `Except String`.  `datetime` values are
embedded as their `isoformat` rendering and `Path` values as their `str`
rendering, so `_normalize_datetime`/`_normalize_path` act as identities
on already-rendered values. -/

/-- One row of the `downloads` table.  Every column is nullable; the
`retry_count` column carries `DEFAULT 0`. -/
structure Row where
  video_id : Option String
  url : Option String
  title : Option String
  status : Option String
  started_at : Option String
  finished_at : Option String
  file_path : Option String
  error : Option String
  playlist_id : Option String
  playlist_title : Option String
  retry_count : Option Int
  last_action : Option String
deriving Repr, DecidableEq

/-- Process state: `_DB_PATH` and the backing store (`none` while the
`downloads` table has not been created). -/
structure HistoryDB where
  dbPath : Option String
  table : Option (List Row)
deriving Repr, DecidableEq

/-- Python truthiness of an optional string (`None` and `""` are falsy). -/
def pyTruthy : Option String → Bool
  | none => false
  | some s => s != ""

/-- Python `a or b` on optional strings: `b` whenever `a` is falsy. -/
def pyOr (a b : Option String) : Option String :=
  if pyTruthy a then a else b

/-- `DownloadEvent` (`types.py`).  The dataclass annotates `video_id` and
`url` as `str`, but dataclasses do not enforce annotations at runtime, so
`None` is representable and flows into the SQL parameters; both are
embedded as optional. -/
structure DownloadEvent where
  video_id : Option String
  url : Option String
  title : Option String
  status : String
  started_at : Option String
  finished_at : Option String
  file_path : Option String
  error : Option String
  playlist_id : Option String
  playlist_title : Option String
deriving Repr, DecidableEq

/-- `get_connection()`: raises until `init_db` has set `_DB_PATH`. -/
def get_connection (db : HistoryDB) : Except String Unit :=
  match db.dbPath with
  | none => .error "database path is not initialized; call init_db() first"
  | some _ => .ok ()

/-- `ensure_schema()`: needs a connection; creates the table when absent
(the column migration is additive and the embedded schema is already
full); returns whether the table was created by this call. -/
def ensure_schema (db : HistoryDB) : Except String (Bool × HistoryDB) :=
  match get_connection db with
  | .error err => .error err
  | .ok _ => .ok (!db.table.isSome, { db with table := some (db.table.getD []) })

/-- The primary-key value `record_event` computes:
`(normalize(video_id) or normalize(url)) or (video_id or url)`. -/
def eventKey (e : DownloadEvent) : Option String :=
  pyOr (pyOr (normalize_history_id e.video_id) (normalize_history_id e.url))
    (pyOr e.video_id e.url)

/-- The parameter row `record_event` inserts (before conflict handling);
`retry_count` and `last_action` are not in the insert column list, so the
row takes the column default `0` and `NULL`. -/
def eventPayload (e : DownloadEvent) : Row :=
  { video_id := eventKey e, url := e.url, title := e.title,
    status := some e.status, started_at := e.started_at,
    finished_at := e.finished_at, file_path := e.file_path,
    error := e.error, playlist_id := e.playlist_id,
    playlist_title := e.playlist_title, retry_count := some 0,
    last_action := none }

/-- SQL `COALESCE` of two nullable values. -/
def sqlCoalesce (a b : Option String) : Option String :=
  match a with
  | some x => some x
  | none => b

/-- The `ON CONFLICT(video_id) DO UPDATE` clause: `url` and `status` take
the excluded (incoming) value unconditionally; the other scalar columns
are coalesced; `retry_count`/`last_action` are untouched. -/
def mergeRow (old p : Row) : Row :=
  { video_id := old.video_id, url := p.url,
    title := sqlCoalesce p.title old.title, status := p.status,
    started_at := sqlCoalesce p.started_at old.started_at,
    finished_at := sqlCoalesce p.finished_at old.finished_at,
    file_path := sqlCoalesce p.file_path old.file_path,
    error := sqlCoalesce p.error old.error,
    playlist_id := sqlCoalesce p.playlist_id old.playlist_id,
    playlist_title := sqlCoalesce p.playlist_title old.playlist_title,
    retry_count := old.retry_count, last_action := old.last_action }

/-- Insert-or-merge on the `video_id` primary key.  A conflict needs a
non-`NULL` key equal to an existing row's key (SQL `NULL` never compares
equal); otherwise the row is appended. -/
def upsertRow (p : Row) : List Row → List Row
  | [] => [p]
  | r :: rest =>
    if p.video_id.isSome && r.video_id == p.video_id then
      mergeRow r p :: rest
    else r :: upsertRow p rest

/-- `record_event(event)`: ensure the schema, then upsert the payload
row.  (The optional metadata-log append at the end touches only a side
file and swallows its own failures; it does not affect the table.) -/
def record_event (e : DownloadEvent) (db : HistoryDB) :
    Except String HistoryDB :=
  match ensure_schema db with
  | .error err => .error err
  | .ok (_, db) =>
    .ok { db with table := some (upsertRow (eventPayload e) (db.table.getD [])) }

/-- The `WHERE` clause of `fetch_download`/`update_download`: OR-match on
whichever of the two parameters is truthy, by SQL equality (a `NULL`
column never matches). -/
def rowMatches (video_id url : Option String) (r : Row) : Bool :=
  (pyTruthy video_id && r.video_id == video_id) ||
    (pyTruthy url && r.url == url)

/-- Does `b` sort strictly before `a` under
`ORDER BY finished_at DESC NULLS LAST` (text columns compare byte-wise)? -/
def finishedDescBefore (a b : Row) : Bool :=
  match b.finished_at, a.finished_at with
  | some x, some y => lexLt y.toList x.toList
  | some _, none => true
  | none, _ => false

/-- `fetchone()` after that ordering: the best row, ties kept in storage
order. -/
def pickFirst (rows : List Row) : Option Row :=
  rows.foldl
    (fun acc r =>
      match acc with
      | none => some r
      | some a => if finishedDescBefore a r then some r else some a)
    none

/-- `fetch_download(video_id, url)`: `None` when both keys are falsy
(before touching storage), else the best OR-matching row. -/
def fetch_download (video_id url : Option String) (db : HistoryDB) :
    Except String (Option Row) :=
  if !pyTruthy video_id && !pyTruthy url then .ok none
  else
    match ensure_schema db with
    | .error err => .error err
    | .ok (_, db) =>
      .ok (pickFirst ((db.table.getD []).filter (rowMatches video_id url)))

/-- `update_download(video_id, url, status=..., retry_increment=...,
last_action=...)`: early return on no key (before touching storage);
after `ensure_schema`, no-op when nothing is to be updated; else update
every OR-matching row: set `status`/`last_action` when supplied and add 1
to `COALESCE(retry_count, 0)` when asked. -/
def update_download (video_id url : Option String) (status : Option String)
    (retry_increment : Bool) (last_action : Option String)
    (db : HistoryDB) : Except String HistoryDB :=
  if !pyTruthy video_id && !pyTruthy url then .ok db
  else
    match ensure_schema db with
    | .error err => .error err
    | .ok (_, db) =>
    if status.isNone && last_action.isNone && !retry_increment then .ok db
    else
      .ok { db with table := some ((db.table.getD []).map fun r =>
        if rowMatches video_id url r then
          { r with
            status := if status.isSome then status else r.status,
            last_action := if last_action.isSome then last_action else r.last_action,
            retry_count :=
              if retry_increment then some (r.retry_count.getD 0 + (1 : Int))
              else r.retry_count }
        else r) }

/-- Sort key `COALESCE(finished_at, started_at)` of `list_downloads`. -/
def listKey (r : Row) : Option String :=
  sqlCoalesce r.finished_at r.started_at

/-- Does `b` sort strictly before `a` under
`ORDER BY COALESCE(finished_at, started_at) DESC` (SQL `NULL`s last in a
descending order)? -/
def listDescBefore (a b : Row) : Bool :=
  match listKey b, listKey a with
  | some x, some y => lexLt y.toList x.toList
  | some _, none => true
  | none, _ => false

/-- Stable descending insertion for the `list_downloads` ordering. -/
def insertRowDesc (x : Row) : List Row → List Row
  | [] => [x]
  | y :: ys => if listDescBefore x y then y :: insertRowDesc x ys else x :: y :: ys

/-- SQL `>=` on `COALESCE(finished_at, started_at)` against a text
parameter; a `NULL` key never satisfies it. -/
def sinceMatches (since : String) (r : Row) : Bool :=
  match listKey r with
  | none => false
  | some k => !lexLt k.toList since.toList

/-- `list_downloads(statuses=..., limit=..., since=..., playlist_id=...)`. -/
def list_downloads (statuses : List String) (limit : Option Int)
    (since : Option String) (playlist_id : Option String)
    (db : HistoryDB) : Except String (List Row) :=
  match ensure_schema db with
  | .error err => .error err
  | .ok (_, db) =>
  let normalizedStatuses := statuses.filter (fun s => s != "")
  let normalizedLimit : Option Int :=
    match limit with
    | some n => if n > 0 then some n else none
    | none => none
  let rows := (db.table.getD []).filter fun r =>
    (normalizedStatuses.isEmpty ||
      (match r.status with
       | some s => normalizedStatuses.contains s
       | none => false)) &&
    (match since with
     | some s => if s != "" then sinceMatches s r else true
     | none => true) &&
    (match playlist_id with
     | some p => if p != "" then r.playlist_id == some p else true
     | none => true)
  let sorted := rows.foldl (fun acc x => insertRowDesc x acc) []
  .ok (match normalizedLimit with
       | some n => sorted.take n.toNat
       | none => sorted)

/-! ### Bulk importer (`import_from_jsonl`)

JSON values from `json.loads` are embedded as an inductive; a source line
is `Option JVal` (`none` for a blank or unparseable line); the file is
`Option` over its lines (`none` when `Path(path).is_file()` is false).
JSON numbers are embedded as the integers the metadata logs carry.
`datetime.fromtimestamp` (local-time dependent) is a parameter
`fromTs : Int → Option String` returning the `isoformat` rendering, or
`none` when it raises. -/

inductive JVal where
  | jnull
  | jbool (b : Bool)
  | jnum (n : Int)
  | jstr (s : String)
  | jlist (xs : List JVal)
  | jdict (kvs : List (String × JVal))
deriving Repr

/-- Python truthiness of a JSON value. -/
def jTruthy : JVal → Bool
  | .jnull => false
  | .jbool b => b
  | .jnum n => n != 0
  | .jstr s => s != ""
  | .jlist xs => !xs.isEmpty
  | .jdict kvs => !kvs.isEmpty

/-- `dict.get(key)`: `None` when absent. -/
def jGet (kvs : List (String × JVal)) (k : String) : Option JVal :=
  (kvs.find? fun p => p.1 == k).map (·.2)

/-- Python `a or b` on looked-up values (`None` and falsy values pass
through to `b`). -/
def jorOpt (a b : Option JVal) : Option JVal :=
  match a with
  | some v => if jTruthy v then a else b
  | none => b

mutual
/-- Python `repr` of a JSON value (string escaping is not modelled; the
importer only renders scalars). -/
def jRepr : JVal → String
  | .jnull => "None"
  | .jbool b => if b then "True" else "False"
  | .jnum n => toString n
  | .jstr s => "\x27" ++ s ++ "\x27"
  | .jlist xs => "[" ++ jReprL xs ++ "]"
  | .jdict kvs => "\x7b" ++ jReprD kvs ++ "\x7d"

/-- `repr` of list elements, comma-separated. -/
def jReprL : List JVal → String
  | [] => ""
  | [x] => jRepr x
  | x :: y :: rest => jRepr x ++ ", " ++ jReprL (y :: rest)

/-- `repr` of dict items, comma-separated. -/
def jReprD : List (String × JVal) → String
  | [] => ""
  | [(k, v)] => "\x27" ++ k ++ "\x27: " ++ jRepr v
  | (k, v) :: y :: rest => "\x27" ++ k ++ "\x27: " ++ jRepr v ++ ", " ++ jReprD (y :: rest)
end

/-- Python `str` of a JSON value (`str` on a `str` is the identity;
containers and scalars render as their `repr`). -/
def jStrOf : JVal → String
  | .jstr s => s
  | v => jRepr v

/-- `_as_str(value)`: `None` for `None`/`""`, else `str(value)`. -/
def asStr : Option JVal → Option String
  | none => none
  | some v =>
    match v with
    | .jnull => none
    | .jstr s => if s = "" then none else some s
    | w => some (jStrOf w)

/-- `_to_path` composed with `_normalize_path`: a non-blank string gives
`str(Path(value.strip()))`, everything else `None`.  `str(Path(s))` is
embedded as the stripped string itself (the claims never exercise the
redundant-separator collapsing `Path` performs). -/
def toPathStr : JVal → Option String
  | .jstr s =>
    let t := pyStrip s.toList
    if t.isEmpty then none else some (String.mk t)
  | _ => none

/-- Zero-pad a number to `w` digits. -/
def padNum (w n : Nat) : String :=
  let s := toString n
  String.mk (List.replicate (w - s.length) '0') ++ s

/-- Gregorian leap year (as `calendar`/`datetime` use). -/
def isLeap (y : Nat) : Bool :=
  (y % 4 == 0 && y % 100 != 0) || y % 400 == 0

/-- Days in a month. -/
def daysInMonth (y m : Nat) : Nat :=
  if m == 2 then (if isLeap y then 29 else 28)
  else if m == 4 || m == 6 || m == 9 || m == 11 then 30
  else 31

/-- `datetime.strptime(value, "%Y%m%d").isoformat()` on an 8-digit
string: the first four digits are the year, then month and day, each
validated as `datetime` does (year at least 1); the result is the ISO
date followed by midnight. -/
def strptimeYmd (digits : List Char) : Option String :=
  match digits with
  | [y1, y2, y3, y4, m1, m2, d1, d2] =>
    let y := ((y1.toNat - 48) * 1000 + (y2.toNat - 48) * 100 +
              (y3.toNat - 48) * 10 + (y4.toNat - 48))
    let m := (m1.toNat - 48) * 10 + (m2.toNat - 48)
    let d := (d1.toNat - 48) * 10 + (d2.toNat - 48)
    if 1 ≤ y && 1 ≤ m && m ≤ 12 && 1 ≤ d && d ≤ daysInMonth y m then
      some (padNum 4 y ++ "-" ++ padNum 2 m ++ "-" ++ padNum 2 d ++ "T00:00:00")
    else none
  | _ => none

/-- Model of `float(value)` for the numeric strings the logs carry: an
optional sign followed by digits (fractional and exponent forms are not
modelled; no log field in this repository produces them). -/
def pyFloat (l : List Char) : Option Int :=
  let t := pyStrip l
  let (neg, digits) :=
    match t with
    | '-' :: rest => (true, rest)
    | '+' :: rest => (false, rest)
    | _ => (false, t)
  if digits.isEmpty || !digits.all Char.isDigit then none
  else
    let n : Nat := digits.foldl (fun acc c => acc * 10 + (c.toNat - 48)) 0
    some (if neg then -(n : Int) else (n : Int))

/-- Two-digit read. -/
def twoDigits (a b : Char) : Nat := (a.toNat - 48) * 10 + (b.toNat - 48)

/-- `datetime.fromisoformat(value).isoformat(timespec="seconds")` for the
shapes `YYYY-MM-DD` and `YYYY-MM-DD[T ]HH:MM:SS` (fuller ISO-8601 forms
are not modelled; no claim exercises this fallback). -/
def fromIso (l : List Char) : Option String :=
  match l with
  | [y1, y2, y3, y4, '-', m1, m2, '-', d1, d2] =>
    strptimeYmd [y1, y2, y3, y4, m1, m2, d1, d2]
  | [y1, y2, y3, y4, '-', m1, m2, '-', d1, d2, sep, h1, h2, ':', n1, n2, ':', s1, s2] =>
    if (sep == 'T' || sep == ' ') &&
        [y1, y2, y3, y4, m1, m2, d1, d2, h1, h2, n1, n2, s1, s2].all Char.isDigit &&
        twoDigits h1 h2 < 24 && twoDigits n1 n2 < 60 && twoDigits s1 s2 < 60 then
      match strptimeYmd [y1, y2, y3, y4, m1, m2, d1, d2] with
      | some _ =>
        some (String.mk [y1, y2, y3, y4, '-', m1, m2, '-', d1, d2, 'T',
          h1, h2, ':', n1, n2, ':', s1, s2])
      | none => none
    else none
  | _ => none

/-- The string fallbacks of `_extract_timestamp` after the `YYYYMMDD`
branch: `float(value)` fed to `fromtimestamp`, then `fromisoformat`. -/
def tsStrFallback (fromTs : Int → Option String) (t : List Char) : Option String :=
  match pyFloat t with
  | some n =>
    match fromTs n with
    | some iso => some iso
    | none => fromIso t
  | none => fromIso t

/-- `_extract_timestamp(raw)`: numbers (and booleans, which are `int`s in
Python) go through `fromtimestamp`; strings are stripped, tried as
`YYYYMMDD`, as a float epoch, then as ISO-8601; anything else yields
`None`. -/
def extractTimestamp (fromTs : Int → Option String) (raw : Option JVal) :
    Option String :=
  match raw with
  | none => none
  | some .jnull => none
  | some (.jbool b) => fromTs (if b then 1 else 0)
  | some (.jnum n) => fromTs n
  | some (.jstr s) =>
    let t := pyStrip s.toList
    if t.isEmpty then none
    else if t.length = 8 && t.all Char.isDigit then
      match strptimeYmd t with
      | some iso => some iso
      | none => tsStrFallback fromTs t
    else tsStrFallback fromTs t
  | some (.jlist _) => none
  | some (.jdict _) => none

/-- The `for ts_key in ("epoch", "timestamp", "release_timestamp",
"upload_date")` loop: the result of the last tried key when no earlier
result is truthy. -/
def tsLoop (fromTs : Int → Option String) (data : List (String × JVal)) :
    List String → Option String
  | [] => none
  | [k] => extractTimestamp fromTs (jGet data k)
  | k :: k' :: rest =>
    let f := extractTimestamp fromTs (jGet data k)
    if pyTruthy f then f else tsLoop fromTs data (k' :: rest)

/-- The completion timestamp an imported line receives. -/
def deriveFinishedAt (fromTs : Int → Option String)
    (data : List (String × JVal)) : Option String :=
  tsLoop fromTs data ["epoch", "timestamp", "release_timestamp", "upload_date"]

/-- The `requested_downloads` scan: the first item that is a dict with a
truthy `filepath`/`filename`/`_filename` chain (the loop keeps the last
falsy chain value otherwise, which the final truthiness test discards). -/
def firstRequestedPath : List JVal → Option JVal
  | [] => none
  | .jdict kvs :: rest =>
    let p := jorOpt (jorOpt (jGet kvs "filepath") (jGet kvs "filename"))
      (jGet kvs "_filename")
    match p with
    | some v => if jTruthy v then some v else firstRequestedPath rest
    | none => firstRequestedPath rest
  | _ :: rest => firstRequestedPath rest

/-- Per-line row derivation of `import_from_jsonl` (`None` when no
identifier can be derived). -/
def deriveRow (fromTs : Int → Option String) (data : List (String × JVal)) :
    Option Row :=
  let raw_video_id := asStr (jorOpt (jorOpt (jorOpt (jGet data "id")
    (jGet data "video_id")) (jGet data "display_id")) (jGet data "url"))
  if !pyTruthy raw_video_id then none
  else
    let url0 := asStr (jorOpt (jorOpt (jGet data "webpage_url")
      (jGet data "original_url")) (jGet data "url"))
    let url := if pyTruthy url0 then url0 else raw_video_id
    let normalized0 := pyOr (normalize_history_id raw_video_id)
      (normalize_history_id url)
    let normalized_id := if pyTruthy normalized0 then normalized0 else raw_video_id
    let title := asStr (jGet data "title")
    let status := pyOr (asStr (jGet data "status")) (some "finished")
    let playlist_id := asStr (jorOpt (jGet data "playlist_id") (jGet data "playlist"))
    let playlist_title := asStr (jorOpt (jGet data "playlist_title") (jGet data "playlist"))
    let raw_path0 := jorOpt (jorOpt (jGet data "filepath") (jGet data "filename"))
      (jGet data "_filename")
    let raw_path :=
      if raw_path0.elim false jTruthy then raw_path0
      else
        match jGet data "requested_downloads" with
        | some (.jlist items) => firstRequestedPath items
        | _ => raw_path0
    let file_path :=
      match raw_path with
      | some v => if jTruthy v then toPathStr v else none
      | none => none
    some { video_id := normalized_id, url := url, title := title,
           status := status, started_at := none,
           finished_at := deriveFinishedAt fromTs data,
           file_path := file_path, error := none,
           playlist_id := playlist_id, playlist_title := playlist_title,
           retry_count := some 0, last_action := none }

/-- One step of the batch insert: a row whose non-`NULL` key already
exists in the table built so far is skipped (`ON CONFLICT(video_id) DO
NOTHING`; SQL `NULL` keys never conflict), else appended and counted. -/
def insertStep (acc : Nat × List Row) (r : Row) : Nat × List Row :=
  if r.video_id.isSome && acc.2.any (fun x => x.video_id == r.video_id) then acc
  else (acc.1 + 1, acc.2 ++ [r])

/-- The batch `INSERT ... ON CONFLICT(video_id) DO NOTHING` over all
derived rows; the count is `conn.total_changes` (rows actually
inserted). -/
def insertIgnore (rows : List Row) (table : List Row) : Nat × List Row :=
  rows.foldl insertStep (0, table)

/-- One source line: blank or unparseable lines (`none`) and non-dict
values are skipped; dict lines go through row derivation. -/
def importLine (fromTs : Int → Option String) : Option JVal → Option Row
  | none => none
  | some (.jdict kvs) => deriveRow fromTs kvs
  | some _ => none

/-- `import_from_jsonl(path)`: `0` when the path is not a file; the
`SELECT 1 FROM downloads LIMIT 1` guard needs a connection (raising when
`_DB_PATH` is unset) and the table (raising when it was never created);
`0` when the table already has a row or no line yields a row; otherwise
batch-insert and return the insert count. -/
def import_from_jsonl (fromTs : Int → Option String)
    (file : Option (List (Option JVal))) (db : HistoryDB) :
    Except String (Nat × HistoryDB) :=
  match file with
  | none => .ok (0, db)
  | some lines =>
    match get_connection db with
    | .error err => .error err
    | .ok _ =>
    match db.table with
    | none => .error "no such table: downloads"
    | some t =>
      if !t.isEmpty then .ok (0, db)
      else
        let rows := lines.filterMap (importLine fromTs)
        if rows.isEmpty then .ok (0, db)
        else
          .ok ((insertIgnore rows t).1,
            { db with table := some (insertIgnore rows t).2 })

/-! ### Decision Driver (`cli.py`) and history-recording step
(`downloader.py`)

The terminal prompts are pure data here: the user's reply is the
`choice` argument (and `newDir` for the download-elsewhere branch).  The
storage calls that those functions guard with `try/except` are passed in
as `Except`-valued functions, so that the claims can quantify over any
raising behaviour. -/

/-- `HistoryDecision` (`cli.py`). -/
structure HistoryDecision where
  proceed : Bool
  overwrite : Bool := false
  new_output : Option String := none
  action : Option String := none
  increment_retry : Bool := false
deriving Repr, DecidableEq

/-- `str.strip()` on a `String`. -/
def pyStripStr (s : String) : String := String.mk (pyStrip s.toList)

/-- The decision branches of `prompt_history_decision` for a found
entry, keyed by `(entry.get("status") or "").lower()` and the user's
stripped reply. -/
def decideHistory (entry : Row) (choice : String) (newDir : String) :
    HistoryDecision :=
  let status := String.mk (pyLower ((entry.status.getD "").toList))
  if status = "success" then
    if pyStripStr choice = "2" then
      { proceed := true, overwrite := true, action := some "overwrite",
        increment_retry := true }
    else if pyStripStr choice = "3" then
      { proceed := true, new_output := some newDir,
        action := some "download_elsewhere", increment_retry := true }
    else { proceed := false, action := some "skip" }
  else if status = "failed" || status = "in_progress" then
    if pyStripStr choice = "2" then
      { proceed := true, overwrite := true, action := some "restart",
        increment_retry := true }
    else if pyStripStr choice = "0" then
      { proceed := false, action := some "skip" }
    else
      { proceed := true, action := some "resume", increment_retry := true }
  else
    if pyStripStr choice = "0" then { proceed := false, action := some "skip" }
    else { proceed := true, action := some "proceed" }

/-- The `status` argument the write-back passes to `update_download`:
`"in_progress"` if proceeding with an action other than skip. -/
def writebackStatus (d : HistoryDecision) : Option String :=
  if d.proceed && d.action ≠ some "skip" then some "in_progress" else none

/-- `prompt_history_decision`: no history gives proceed; a failing or
empty fetch gives proceed; otherwise decide from the entry and the
reply, then write back `last_action`/`retry_increment`/`status` with any
exception caught and logged. -/
def prompt_history_decision (histAvail : Bool)
    (fetch : Except String (Option Row)) (choice newDir : String)
    (upd : Option String → Bool → Option String → Except String Unit) :
    Except String HistoryDecision :=
  if !histAvail then .ok { proceed := true }
  else
    match fetch with
    | .error _ => .ok { proceed := true }
    | .ok none => .ok { proceed := true }
    | .ok (some entry) =>
      let d := decideHistory entry choice newDir
      match upd (writebackStatus d) d.increment_retry d.action with
      | .ok _ => .ok d
      | .error _ => .ok d

/-- The `for event in events: try record_event(event) except: log; break`
loop of `_record_history` (`downloader.py`). -/
def recordHistoryLoop (rec : DownloadEvent → Except String Unit) :
    List DownloadEvent → Except String Unit
  | [] => .ok ()
  | e :: rest =>
    match rec e with
    | .ok _ => recordHistoryLoop rec rest
    | .error _ => .ok ()

/-- `_record_history`: nothing on dry runs, else the catching loop over
the built events. -/
def record_history (dryRun : Bool) (rec : DownloadEvent → Except String Unit)
    (events : List DownloadEvent) : Except String Unit :=
  if dryRun then .ok () else recordHistoryLoop rec events

/-! ### Fixtures and helper definitions used by the proofs -/

deriving instance DecidableEq for Except

/-- Concrete fixture: an initialized store with an empty table. -/
def dbEmpty : HistoryDB := ⟨some "history.db", some []⟩

/-- Concrete fixture: an `in_progress` event with no optional fields. -/
def evInProgress : DownloadEvent :=
  ⟨some "abcdefghijk", some "https://youtu.be/abcdefghijk", none,
    "in_progress", none, none, none, none, none, none⟩

/-- Concrete fixture: a `success` event carrying a file path. -/
def evSuccess : DownloadEvent :=
  ⟨some "abcdefghijk", some "https://youtu.be/abcdefghijk", some "Title",
    "success", some "2024-05-11T09:00:00", some "2024-05-11T10:00:00",
    some "/tmp/a.mp4", none, none, none⟩

/-- Concrete fixture: an event carrying a null `url`. -/
def evNullUrl : DownloadEvent :=
  ⟨some "abcdefghijk", none, none, "failed", none, none, none, none, none, none⟩

/-- Concrete fixture: a stored row with a non-null `url`. -/
def rowWithUrl : Row :=
  ⟨some "yt:abcdefghijk", some "https://youtu.be/abcdefghijk", some "Title",
    some "success", none, some "2024-05-11T10:00:00", some "/tmp/a.mp4",
    none, none, none, some 0, none⟩

/-- Concrete fixture: the C4 event stored from the unsorted URL form. -/
def evUrlForm1 : DownloadEvent :=
  ⟨some "https://x.test/v?b=2&a=1", some "https://x.test/v?b=2&a=1", none,
    "success", none, some "2024-05-11T10:00:00", none, none, none, none⟩

/-- Concrete fixture: the C4 event stored from the sorted URL form. -/
def evUrlForm2 : DownloadEvent :=
  ⟨some "https://x.test/v?a=1&b=2", some "https://x.test/v?a=1&b=2", none,
    "success", none, some "2024-05-11T10:00:00", none, none, none, none⟩

/-- The row stored from the unsorted form: its key is the sorted
normalization, its `url` column keeps the raw form. -/
def rowForm1 : Row :=
  ⟨some "https://x.test/v?a=1&b=2", some "https://x.test/v?b=2&a=1", none,
    some "success", none, some "2024-05-11T10:00:00", none, none, none,
    none, some 0, none⟩

/-- The row stored from the sorted form. -/
def rowForm2 : Row :=
  ⟨some "https://x.test/v?a=1&b=2", some "https://x.test/v?a=1&b=2", none,
    some "success", none, some "2024-05-11T10:00:00", none, none, none,
    none, some 0, none⟩

/-- The always-failing `fromtimestamp` stand-in for concrete runs that
never reach the numeric branch. -/
def fromTsNone : Int → Option String := fun _ => none

/-- Concrete fixture: a one-line metadata log. -/
def importFixtureLines : List (Option JVal) :=
  [some (.jdict [("id", .jstr "abcdefghijk"), ("upload_date", .jstr "20240511")])]

/-- The row the one-line fixture log imports to. -/
def importedFixtureRow : Row :=
  ⟨some "yt:abcdefghijk", some "abcdefghijk", none, some "finished", none,
    some "2024-05-11T00:00:00", none, none, none, none, some 0, none⟩

/-- The row update the restart write-back performs. -/
def restartUpdate (r : Row) : Row :=
  { r with
      status := some "in_progress"
      last_action := some "restart"
      retry_count := some (r.retry_count.getD 0 + 1) }

/-- The row update the skip write-back performs. -/
def skipUpdate (r : Row) : Row :=
  { r with last_action := some "skip" }

/-- Concrete fixture: a failed record with two prior retries. -/
def rowFailed : Row :=
  ⟨some "yt:abcdefghijk", some "https://youtu.be/abcdefghijk", none,
    some "failed", none, none, none, none, none, none, some 2, none⟩

/-- Concrete fixture: the store holding just the failed record. -/
def dbFailed : HistoryDB := ⟨some "history.db", some ([] ++ rowFailed :: [])⟩

/-! ### Helper lemmas about the upsert -/

/-- A payload whose key conflicts with no row is appended. -/
theorem upsertRow_append (p : Row) (t : List Row)
    (h : ∀ r ∈ t, ¬(p.video_id.isSome ∧ r.video_id = p.video_id)) :
    upsertRow p t = t ++ [p] := by
  induction t with
  | nil => rfl
  | cons r rest ih =>
    have hr := h r (List.mem_cons_self r rest)
    have hb : (p.video_id.isSome && r.video_id == p.video_id) = false := by
      simp only [Bool.eq_false_iff, ne_eq, Bool.and_eq_true, beq_iff_eq]
      exact fun hcon => hr ⟨hcon.1, hcon.2⟩
    simp [upsertRow, hb, ih fun x hx => h x (List.mem_cons_of_mem _ hx)]

/-- A payload whose key conflicts first with `r₀` merges into `r₀`. -/
theorem upsertRow_mergeAt (p r₀ : Row) (t₁ t₂ : List Row)
    (h₁ : ∀ r ∈ t₁, ¬(p.video_id.isSome ∧ r.video_id = p.video_id))
    (h₀ : p.video_id.isSome ∧ r₀.video_id = p.video_id) :
    upsertRow p (t₁ ++ r₀ :: t₂) = t₁ ++ mergeRow r₀ p :: t₂ := by
  induction t₁ with
  | nil =>
    have hb : (p.video_id.isSome && r₀.video_id == p.video_id) = true := by
      simp only [Bool.and_eq_true, beq_iff_eq]
      exact ⟨h₀.1, h₀.2⟩
    simp [upsertRow, hb]
  | cons r rest ih =>
    have hr := h₁ r (List.mem_cons_self r rest)
    have hb : (p.video_id.isSome && r.video_id == p.video_id) = false := by
      simp only [Bool.eq_false_iff, ne_eq, Bool.and_eq_true, beq_iff_eq]
      exact fun hcon => hr ⟨hcon.1, hcon.2⟩
    simp [upsertRow, hb, ih fun x hx => h₁ x (List.mem_cons_of_mem _ hx)]

/-! ### Claim C1 -/

/-- C1.  Coalesce-on-conflict upsert law: for events A (status
`in_progress`, no optional fields) and B (status `success`, with a file
path) normalizing to the same key, recording A then B stores status
`success` with B's file path; recording B then A stores status
`in_progress` (status always overwrites) while B's `file_path`,
`title`, `started_at`, `finished_at`, `error`, `playlist_id` and
`playlist_title` survive A's nulls. -/
theorem upsert_coalesce_law (A B : DownloadEvent) (k fp : String)
    (db : HistoryDB) (t : List Row)
    (hA : A.status = "in_progress") (hAf : A.file_path = none)
    (hB : B.status = "success") (hBf : B.file_path = some fp)
    (hkA : eventKey A = some k) (hkB : eventKey B = some k)
    (hpath : db.dbPath.isSome) (htab : db.table = some t)
    (hfresh : ∀ r ∈ t, r.video_id ≠ some k)
    (hAt : A.title = none) (hAs : A.started_at = none)
    (hAfin : A.finished_at = none) (hAe : A.error = none)
    (hApi : A.playlist_id = none) (hApt : A.playlist_title = none) :
    (∃ rAB, (record_event A db).bind (record_event B) =
        .ok { db with table := some (t ++ [rAB]) } ∧
      rAB.status = some "success" ∧ rAB.file_path = some fp) ∧
    (∃ rBA, (record_event B db).bind (record_event A) =
        .ok { db with table := some (t ++ [rBA]) } ∧
      rBA.status = some "in_progress" ∧ rBA.file_path = some fp ∧
      rBA.title = B.title ∧ rBA.started_at = B.started_at ∧
      rBA.finished_at = B.finished_at ∧ rBA.error = B.error ∧
      rBA.playlist_id = B.playlist_id ∧ rBA.playlist_title = B.playlist_title) := by
  obtain ⟨pth, hpth⟩ := Option.isSome_iff_exists.mp hpath
  have hdb : db = ⟨some pth, some t⟩ := by
    cases db
    simp_all
  have hstep : ∀ (e : DownloadEvent) (q : String) (u : List Row),
      record_event e ⟨some q, some u⟩ =
        .ok ⟨some q, some (upsertRow (eventPayload e) u)⟩ :=
    fun _ _ _ => rfl
  have hbind : ∀ (x : HistoryDB) (f : HistoryDB → Except String HistoryDB),
      (Except.ok x : Except String HistoryDB).bind f = f x := fun _ _ => rfl
  have hpA : (eventPayload A).video_id = some k := hkA
  have hpB : (eventPayload B).video_id = some k := hkB
  have hfreshA : ∀ r ∈ t, ¬((eventPayload A).video_id.isSome ∧
      r.video_id = (eventPayload A).video_id) := by
    intro r hr hcon
    exact hfresh r hr (by rw [hcon.2, hpA])
  have hfreshB : ∀ r ∈ t, ¬((eventPayload B).video_id.isSome ∧
      r.video_id = (eventPayload B).video_id) := by
    intro r hr hcon
    exact hfresh r hr (by rw [hcon.2, hpB])
  have hconfAB : (eventPayload B).video_id.isSome ∧
      (eventPayload A).video_id = (eventPayload B).video_id := by
    refine ⟨?_, ?_⟩
    · rw [hpB]; rfl
    · rw [hpA, hpB]
  have hconfBA : (eventPayload A).video_id.isSome ∧
      (eventPayload B).video_id = (eventPayload A).video_id := by
    refine ⟨?_, ?_⟩
    · rw [hpA]; rfl
    · rw [hpA, hpB]
  constructor
  · refine ⟨mergeRow (eventPayload A) (eventPayload B), ?_, ?_, ?_⟩
    · rw [hdb, hstep A, hbind, upsertRow_append (eventPayload A) t hfreshA,
        hstep B, upsertRow_mergeAt (eventPayload B) (eventPayload A) t []
          hfreshB hconfAB]
    · show (eventPayload B).status = some "success"
      simp [eventPayload, hB]
    · show sqlCoalesce (eventPayload B).file_path (eventPayload A).file_path = some fp
      simp [eventPayload, hBf, sqlCoalesce]
  · refine ⟨mergeRow (eventPayload B) (eventPayload A), ?_, ?_, ?_, ?_, ?_, ?_, ?_, ?_, ?_⟩
    · rw [hdb, hstep B, hbind, upsertRow_append (eventPayload B) t hfreshB,
        hstep A, upsertRow_mergeAt (eventPayload A) (eventPayload B) t []
          hfreshA hconfBA]
    · show (eventPayload A).status = some "in_progress"
      simp [eventPayload, hA]
    · show sqlCoalesce (eventPayload A).file_path (eventPayload B).file_path = some fp
      simp [eventPayload, hAf, hBf, sqlCoalesce]
    · show sqlCoalesce (eventPayload A).title (eventPayload B).title = B.title
      simp [eventPayload, hAt, sqlCoalesce]
    · show sqlCoalesce (eventPayload A).started_at (eventPayload B).started_at = B.started_at
      simp [eventPayload, hAs, sqlCoalesce]
    · show sqlCoalesce (eventPayload A).finished_at (eventPayload B).finished_at = B.finished_at
      simp [eventPayload, hAfin, sqlCoalesce]
    · show sqlCoalesce (eventPayload A).error (eventPayload B).error = B.error
      simp [eventPayload, hAe, sqlCoalesce]
    · show sqlCoalesce (eventPayload A).playlist_id (eventPayload B).playlist_id = B.playlist_id
      simp [eventPayload, hApi, sqlCoalesce]
    · show sqlCoalesce (eventPayload A).playlist_title (eventPayload B).playlist_title = B.playlist_title
      simp [eventPayload, hApt, sqlCoalesce]

/-- `record_event` on an initialized store with an existing table is the
pure upsert. -/
theorem record_event_ok (e : DownloadEvent) (q : String) (u : List Row) :
    record_event e ⟨some q, some u⟩ =
      .ok ⟨some q, some (upsertRow (eventPayload e) u)⟩ := rfl







/-- Witness for C1 at the concrete fixtures. -/
theorem upsert_coalesce_law_witness :
    (∃ rAB, (record_event evInProgress dbEmpty).bind (record_event evSuccess) =
        .ok { dbEmpty with table := some ([] ++ [rAB]) } ∧
      rAB.status = some "success" ∧ rAB.file_path = some "/tmp/a.mp4") ∧
    (∃ rBA, (record_event evSuccess dbEmpty).bind (record_event evInProgress) =
        .ok { dbEmpty with table := some ([] ++ [rBA]) } ∧
      rBA.status = some "in_progress" ∧ rBA.file_path = some "/tmp/a.mp4" ∧
      rBA.title = evSuccess.title ∧ rBA.started_at = evSuccess.started_at ∧
      rBA.finished_at = evSuccess.finished_at ∧ rBA.error = evSuccess.error ∧
      rBA.playlist_id = evSuccess.playlist_id ∧
      rBA.playlist_title = evSuccess.playlist_title) :=
  upsert_coalesce_law evInProgress evSuccess "yt:abcdefghijk" "/tmp/a.mp4"
    dbEmpty [] rfl rfl rfl rfl (by decide) (by decide) rfl rfl
    (by intro r hr; exact absurd hr (List.not_mem_nil r))
    rfl rfl rfl rfl rfl rfl

/-! ### Claim C10 -/

/-- C10.  In the merge, `url` is overwritten unconditionally: an event
whose key matches an existing record stores its own `url` even when that
incoming `url` is null, erasing a previously stored non-null `url`,
while the other scalar fields (all null on the incoming event here) are
coalesced and survive. -/
theorem url_overwritten_unconditionally (E : DownloadEvent) (k u : String)
    (db : HistoryDB) (t₁ t₂ : List Row) (r : Row)
    (hkE : eventKey E = some k) (hE : E.url = none)
    (hEt : E.title = none) (hEs : E.started_at = none)
    (hEf : E.finished_at = none) (hEfp : E.file_path = none)
    (hEe : E.error = none) (hEpi : E.playlist_id = none)
    (hEpt : E.playlist_title = none)
    (hpath : db.dbPath.isSome) (htab : db.table = some (t₁ ++ r :: t₂))
    (hr : r.video_id = some k) (hu : r.url = some u)
    (hfresh : ∀ x ∈ t₁, x.video_id ≠ some k) :
    ∃ r', record_event E db = .ok { db with table := some (t₁ ++ r' :: t₂) } ∧
      r'.url = none ∧ r'.status = some E.status ∧
      r'.title = r.title ∧ r'.started_at = r.started_at ∧
      r'.finished_at = r.finished_at ∧ r'.file_path = r.file_path ∧
      r'.error = r.error ∧ r'.playlist_id = r.playlist_id ∧
      r'.playlist_title = r.playlist_title := by
  obtain ⟨pth, hpth⟩ := Option.isSome_iff_exists.mp hpath
  have hdb : db = ⟨some pth, some (t₁ ++ r :: t₂)⟩ := by
    cases db
    simp_all
  have hpE : (eventPayload E).video_id = some k := hkE
  have hfreshE : ∀ x ∈ t₁, ¬((eventPayload E).video_id.isSome ∧
      x.video_id = (eventPayload E).video_id) := by
    intro x hx hcon
    exact hfresh x hx (by rw [hcon.2, hpE])
  have hconf : (eventPayload E).video_id.isSome ∧
      r.video_id = (eventPayload E).video_id := by
    refine ⟨?_, ?_⟩
    · rw [hpE]; rfl
    · rw [hpE, hr]
  refine ⟨mergeRow r (eventPayload E), ?_, ?_, ?_, ?_, ?_, ?_, ?_, ?_, ?_, ?_⟩
  · rw [hdb, record_event_ok,
      upsertRow_mergeAt (eventPayload E) r t₁ t₂ hfreshE hconf]
  · show (eventPayload E).url = none
    simpa [eventPayload] using hE
  · rfl
  · show sqlCoalesce (eventPayload E).title r.title = r.title
    simp [eventPayload, hEt, sqlCoalesce]
  · show sqlCoalesce (eventPayload E).started_at r.started_at = r.started_at
    simp [eventPayload, hEs, sqlCoalesce]
  · show sqlCoalesce (eventPayload E).finished_at r.finished_at = r.finished_at
    simp [eventPayload, hEf, sqlCoalesce]
  · show sqlCoalesce (eventPayload E).file_path r.file_path = r.file_path
    simp [eventPayload, hEfp, sqlCoalesce]
  · show sqlCoalesce (eventPayload E).error r.error = r.error
    simp [eventPayload, hEe, sqlCoalesce]
  · show sqlCoalesce (eventPayload E).playlist_id r.playlist_id = r.playlist_id
    simp [eventPayload, hEpi, sqlCoalesce]
  · show sqlCoalesce (eventPayload E).playlist_title r.playlist_title = r.playlist_title
    simp [eventPayload, hEpt, sqlCoalesce]



/-- Witness for C10 at the concrete fixtures. -/
theorem url_overwritten_unconditionally_witness :
    ∃ r', record_event evNullUrl ⟨some "history.db", some ([] ++ rowWithUrl :: [])⟩ =
        .ok { (⟨some "history.db", some ([] ++ rowWithUrl :: [])⟩ : HistoryDB) with
          table := some ([] ++ r' :: []) } ∧
      r'.url = none ∧ r'.status = some evNullUrl.status ∧
      r'.title = rowWithUrl.title ∧ r'.started_at = rowWithUrl.started_at ∧
      r'.finished_at = rowWithUrl.finished_at ∧
      r'.file_path = rowWithUrl.file_path ∧ r'.error = rowWithUrl.error ∧
      r'.playlist_id = rowWithUrl.playlist_id ∧
      r'.playlist_title = rowWithUrl.playlist_title :=
  url_overwritten_unconditionally evNullUrl "yt:abcdefghijk"
    "https://youtu.be/abcdefghijk" ⟨some "history.db", some ([] ++ rowWithUrl :: [])⟩
    [] [] rowWithUrl (by decide) rfl rfl rfl rfl rfl rfl rfl rfl rfl rfl rfl rfl
    (by intro x hx; exact absurd hx (List.not_mem_nil x))

/-! ### Claim C2 -/

/-- C2.  History writes are soft-fail: `_record_history` returns
normally for every list of events and every raising behaviour of
`record_event`, and `prompt_history_decision` returns a decision
normally for every raising behaviour of `fetch_download` and
`update_download`; no exception from a history write propagates. -/
theorem history_writes_soft_fail :
    (∀ (dryRun : Bool) (rec : DownloadEvent → Except String Unit)
        (events : List DownloadEvent),
      record_history dryRun rec events = .ok ()) ∧
    (∀ (histAvail : Bool) (fetch : Except String (Option Row))
        (choice newDir : String)
        (upd : Option String → Bool → Option String → Except String Unit),
      ∃ d, prompt_history_decision histAvail fetch choice newDir upd = .ok d) := by
  constructor
  · intro dryRun rec events
    cases dryRun with
    | true => rfl
    | false =>
      show recordHistoryLoop rec events = .ok ()
      induction events with
      | nil => rfl
      | cons e rest ih =>
        show (match rec e with
          | .ok _ => recordHistoryLoop rec rest
          | .error _ => .ok ()) = .ok ()
        cases rec e with
        | ok _ => exact ih
        | error _ => rfl
  · intro histAvail fetch choice newDir upd
    cases histAvail with
    | false => exact ⟨{ proceed := true }, rfl⟩
    | true =>
      cases fetch with
      | error _ => exact ⟨{ proceed := true }, rfl⟩
      | ok entry =>
        cases entry with
        | none => exact ⟨{ proceed := true }, rfl⟩
        | some row =>
          refine ⟨decideHistory row choice newDir, ?_⟩
          show (match upd (writebackStatus (decideHistory row choice newDir))
              (decideHistory row choice newDir).increment_retry
              (decideHistory row choice newDir).action with
            | .ok _ => Except.ok (decideHistory row choice newDir)
            | .error _ => Except.ok (decideHistory row choice newDir)) =
            .ok (decideHistory row choice newDir)
          cases upd (writebackStatus (decideHistory row choice newDir))
              (decideHistory row choice newDir).increment_retry
              (decideHistory row choice newDir).action with
          | ok _ => rfl
          | error _ => rfl

/-! ### Claim C4 -/

/-- Counterexample to C4 as stated: with the record stored from the form
`?b=2&a=1`, fetching by raw URL alone returns the record for that exact
form but `None` for the reordered form `?a=1&b=2` — `fetch_download`
compares the raw `url` argument against the `url` column without
normalizing it. -/
theorem fetch_param_order_counterexample :
    (record_event evUrlForm1 dbEmpty).bind
        (fetch_download none (some "https://x.test/v?b=2&a=1")) ≠
      (record_event evUrlForm1 dbEmpty).bind
        (fetch_download none (some "https://x.test/v?a=1&b=2")) ∧
    (record_event evUrlForm1 dbEmpty).bind
        (fetch_download none (some "https://x.test/v?b=2&a=1")) =
      .ok (some rowForm1) ∧
    (record_event evUrlForm1 dbEmpty).bind
        (fetch_download none (some "https://x.test/v?a=1&b=2")) = .ok none := by
  refine ⟨?_, by decide, by decide⟩
  decide

/-- C4 (amended).  Query-parameter order independence holds through the
normalized key: once the record is stored from either URL form, fetching
with `video_id = normalize_history_id(url)` (as the CLI caller passes
it) returns the same stored record for both parameter orders; the raw
`url` argument alone matches only the exact stored string. -/
theorem fetch_param_order_amended :
    ((record_event evUrlForm1 dbEmpty).bind
        (fetch_download (normalize_history_id (some "https://x.test/v?b=2&a=1"))
          (some "https://x.test/v?b=2&a=1")) = .ok (some rowForm1) ∧
      (record_event evUrlForm1 dbEmpty).bind
        (fetch_download (normalize_history_id (some "https://x.test/v?a=1&b=2"))
          (some "https://x.test/v?a=1&b=2")) = .ok (some rowForm1)) ∧
    ((record_event evUrlForm2 dbEmpty).bind
        (fetch_download (normalize_history_id (some "https://x.test/v?b=2&a=1"))
          (some "https://x.test/v?b=2&a=1")) = .ok (some rowForm2) ∧
      (record_event evUrlForm2 dbEmpty).bind
        (fetch_download (normalize_history_id (some "https://x.test/v?a=1&b=2"))
          (some "https://x.test/v?a=1&b=2")) = .ok (some rowForm2)) := by
  refine ⟨⟨?_, ?_⟩, ?_, ?_⟩ <;> decide

/-! ### Claim C5 -/

/-- The batch insert never empties a non-empty accumulator table. -/
theorem insertStep_foldl_ne (rows : List Row) (acc : Nat × List Row)
    (h : acc.2 ≠ []) : (rows.foldl insertStep acc).2 ≠ [] := by
  induction rows generalizing acc with
  | nil => exact h
  | cons r rest ih =>
    refine ih (insertStep acc r) ?_
    unfold insertStep
    by_cases hc : (r.video_id.isSome && acc.2.any fun x => x.video_id == r.video_id) = true
    · simpa [hc] using h
    · simp [hc]

/-- Inserting a non-empty batch into an empty table leaves it non-empty. -/
theorem insertIgnore_ne_nil (r : Row) (rs : List Row) :
    (insertIgnore (r :: rs) []).2 ≠ [] := by
  unfold insertIgnore
  show (List.foldl insertStep (insertStep (0, []) r) rs).2 ≠ []
  refine insertStep_foldl_ne rs _ ?_
  simp [insertStep]

/-- C5.  Bulk import is idempotent and guarded: `import_from_jsonl`
returns 0 and leaves the store unchanged when the source path is not a
file or when the table already holds a row; and whatever a first import
of a log returns, a second import of the same log returns 0 with the
store unchanged. -/
theorem import_guarded_idempotent (fromTs : Int → Option String)
    (db : HistoryDB) (t : List Row) (file : Option (List (Option JVal)))
    (hp : db.dbPath.isSome) (ht : db.table = some t) :
    (file = none → import_from_jsonl fromTs file db = .ok (0, db)) ∧
    (t ≠ [] → import_from_jsonl fromTs file db = .ok (0, db)) ∧
    (∀ n db', import_from_jsonl fromTs file db = .ok (n, db') →
      import_from_jsonl fromTs file db' = .ok (0, db')) := by
  obtain ⟨pth, hpth⟩ := Option.isSome_iff_exists.mp hp
  have hdb : db = ⟨some pth, some t⟩ := by
    cases db
    simp_all
  subst hdb
  refine ⟨?_, ?_, ?_⟩
  · rintro rfl
    rfl
  · intro hne
    cases file with
    | none => rfl
    | some lines =>
      cases t with
      | nil => exact absurd rfl hne
      | cons a as => rfl
  · intro n db' himp
    cases file with
    | none =>
      have h0 : import_from_jsonl fromTs none (⟨some pth, some t⟩ : HistoryDB) =
          .ok (0, (⟨some pth, some t⟩ : HistoryDB)) := rfl
      rw [h0] at himp
      simp only [Except.ok.injEq, Prod.mk.injEq] at himp
      obtain ⟨rfl, rfl⟩ := himp
      rfl
    | some lines =>
      cases t with
      | cons a as =>
        have h0 : import_from_jsonl fromTs (some lines)
            (⟨some pth, some (a :: as)⟩ : HistoryDB) =
            .ok (0, (⟨some pth, some (a :: as)⟩ : HistoryDB)) := rfl
        rw [h0] at himp
        simp only [Except.ok.injEq, Prod.mk.injEq] at himp
        obtain ⟨rfl, rfl⟩ := himp
        rfl
      | nil =>
        have hred : import_from_jsonl fromTs (some lines)
            (⟨some pth, some []⟩ : HistoryDB) =
            (if (lines.filterMap (importLine fromTs)).isEmpty then
              .ok (0, (⟨some pth, some []⟩ : HistoryDB))
            else .ok ((insertIgnore (lines.filterMap (importLine fromTs)) []).1,
              (⟨some pth,
                some (insertIgnore (lines.filterMap (importLine fromTs)) []).2⟩ :
                HistoryDB))) := rfl
        cases hrows : lines.filterMap (importLine fromTs) with
        | nil =>
          rw [hred, hrows] at himp
          simp only [List.isEmpty_nil, if_true, Except.ok.injEq,
            Prod.mk.injEq] at himp
          obtain ⟨rfl, rfl⟩ := himp
          rw [hred, hrows]
          simp
        | cons r rs =>
          rw [hred, hrows] at himp
          simp only [List.isEmpty_cons, if_false, Bool.false_eq_true,
            Except.ok.injEq, Prod.mk.injEq] at himp
          obtain ⟨rfl, rfl⟩ := himp
          cases h2 : (insertIgnore (r :: rs) []).2 with
          | nil => exact absurd h2 (insertIgnore_ne_nil r rs)
          | cons b bs => rfl

/-- Witness for C5 at the concrete fixtures. -/
theorem import_guarded_idempotent_witness :
    ((some importFixtureLines : Option (List (Option JVal))) = none →
      import_from_jsonl fromTsNone (some importFixtureLines) dbEmpty =
        .ok (0, dbEmpty)) ∧
    (([] : List Row) ≠ [] →
      import_from_jsonl fromTsNone (some importFixtureLines) dbEmpty =
        .ok (0, dbEmpty)) ∧
    (∀ n db', import_from_jsonl fromTsNone (some importFixtureLines) dbEmpty =
        .ok (n, db') →
      import_from_jsonl fromTsNone (some importFixtureLines) db' = .ok (0, db')) :=
  import_guarded_idempotent fromTsNone dbEmpty [] (some importFixtureLines) rfl rfl

/-! ### Claim C7 -/

/-- A map that moves nothing. -/
theorem list_map_self (f : Row → Row) :
    ∀ t : List Row, (∀ x ∈ t, f x = x) → t.map f = t := by
  intro t
  induction t with
  | nil => intro _; rfl
  | cons a rest ih =>
    intro h
    rw [List.map_cons, h a (List.mem_cons_self a rest),
      ih fun x hx => h x (List.mem_cons_of_mem _ hx)]

/-- `update_download` on an initialized store, with a truthy key and
something to update, maps the update over the OR-matching rows. -/
theorem update_download_ok (vid url st : Option String) (ri : Bool)
    (la : Option String) (pth : String) (t : List Row)
    (hkey : (!pyTruthy vid && !pyTruthy url) = false)
    (hact : (st.isNone && la.isNone && !ri) = false) :
    update_download vid url st ri la ⟨some pth, some t⟩ =
      .ok ⟨some pth, some (t.map fun r =>
        if rowMatches vid url r then
          { r with
            status := if st.isSome then st else r.status,
            last_action := if la.isSome then la else r.last_action,
            retry_count :=
              if ri then some (r.retry_count.getD 0 + (1 : Int))
              else r.retry_count }
        else r)⟩ := by
  simp [update_download, ensure_schema, get_connection, hkey, hact]

/-- C7.  Decision write-back for restart: on a record with status
`failed`, the restart reply produces the decision
`(proceed, overwrite, action "restart", retry increment)`, whose
write-back stores `last_action = "restart"`, increments `retry_count` by
exactly one from `COALESCE(retry_count, 0)` and forces
`status = "in_progress"`; the skip reply's write-back leaves `status`
and `retry_count` untouched. -/
theorem decision_restart_writeback (entry r : Row) (video_id url : Option String)
    (db : HistoryDB) (t₁ t₂ : List Row) (newDir : String)
    (hst : entry.status = some "failed")
    (hpath : db.dbPath.isSome) (htab : db.table = some (t₁ ++ r :: t₂))
    (hr : rowMatches video_id url r = true)
    (h₁ : ∀ x ∈ t₁, rowMatches video_id url x = false)
    (h₂ : ∀ x ∈ t₂, rowMatches video_id url x = false) :
    (decideHistory entry "2" newDir =
      ⟨true, true, none, some "restart", true⟩) ∧
    (∃ r', update_download video_id url
        (writebackStatus (decideHistory entry "2" newDir))
        (decideHistory entry "2" newDir).increment_retry
        (decideHistory entry "2" newDir).action db =
        .ok { db with table := some (t₁ ++ r' :: t₂) } ∧
      r'.last_action = some "restart" ∧
      r'.retry_count = some (r.retry_count.getD 0 + 1) ∧
      r'.status = some "in_progress") ∧
    (decideHistory entry "0" newDir =
      ⟨false, false, none, some "skip", false⟩) ∧
    (∃ r'', update_download video_id url
        (writebackStatus (decideHistory entry "0" newDir))
        (decideHistory entry "0" newDir).increment_retry
        (decideHistory entry "0" newDir).action db =
        .ok { db with table := some (t₁ ++ r'' :: t₂) } ∧
      r''.status = r.status ∧ r''.retry_count = r.retry_count ∧
      r''.last_action = some "skip") := by
  obtain ⟨pth, hpth⟩ := Option.isSome_iff_exists.mp hpath
  have hdb : db = ⟨some pth, some (t₁ ++ r :: t₂)⟩ := by
    cases db
    simp_all
  have hor : pyTruthy video_id = true ∨ pyTruthy url = true := by
    have h := hr
    unfold rowMatches at h
    rcases Bool.or_eq_true_iff.mp h with h' | h'
    · exact Or.inl (Bool.and_eq_true_iff.mp h').1
    · exact Or.inr (Bool.and_eq_true_iff.mp h').1
  have hkey : (!pyTruthy video_id && !pyTruthy url) = false := by
    rcases hor with h' | h' <;> simp [h']
  have hdec2 : decideHistory entry "2" newDir =
      ⟨true, true, none, some "restart", true⟩ := by
    simp [decideHistory, hst, pyLower, lowerAscii, pyStripStr, pyStrip, isPySpace]
  have hdec0 : decideHistory entry "0" newDir =
      ⟨false, false, none, some "skip", false⟩ := by
    simp [decideHistory, hst, pyLower, lowerAscii, pyStripStr, pyStrip, isPySpace]
  refine ⟨hdec2, ?_, hdec0, ?_⟩
  · refine ⟨restartUpdate r, ?_, rfl, rfl, rfl⟩
    rw [hdb, hdec2]
    show update_download video_id url (some "in_progress") true
      (some "restart") ⟨some pth, some (t₁ ++ r :: t₂)⟩ = _
    rw [update_download_ok video_id url (some "in_progress") true
      (some "restart") pth (t₁ ++ r :: t₂) hkey rfl]
    rw [List.map_append, List.map_cons, hr]
    rw [list_map_self _ t₁ (fun x hx => by rw [h₁ x hx]; rfl),
      list_map_self _ t₂ (fun x hx => by rw [h₂ x hx]; rfl)]
    simp [restartUpdate]
  · refine ⟨skipUpdate r, ?_, rfl, rfl, rfl⟩
    rw [hdb, hdec0]
    show update_download video_id url none false
      (some "skip") ⟨some pth, some (t₁ ++ r :: t₂)⟩ = _
    rw [update_download_ok video_id url none false
      (some "skip") pth (t₁ ++ r :: t₂) hkey rfl]
    rw [List.map_append, List.map_cons, hr]
    rw [list_map_self _ t₁ (fun x hx => by rw [h₁ x hx]; rfl),
      list_map_self _ t₂ (fun x hx => by rw [h₂ x hx]; rfl)]
    simp [skipUpdate]

/-- Witness for C7 at the concrete fixtures. -/
theorem decision_restart_writeback_witness :
    (decideHistory rowFailed "2" "downloads" =
      ⟨true, true, none, some "restart", true⟩) ∧
    (∃ r', update_download (some "yt:abcdefghijk")
        (some "https://youtu.be/abcdefghijk")
        (writebackStatus (decideHistory rowFailed "2" "downloads"))
        (decideHistory rowFailed "2" "downloads").increment_retry
        (decideHistory rowFailed "2" "downloads").action dbFailed =
        .ok { dbFailed with table := some ([] ++ r' :: []) } ∧
      r'.last_action = some "restart" ∧
      r'.retry_count = some (rowFailed.retry_count.getD 0 + 1) ∧
      r'.status = some "in_progress") ∧
    (decideHistory rowFailed "0" "downloads" =
      ⟨false, false, none, some "skip", false⟩) ∧
    (∃ r'', update_download (some "yt:abcdefghijk")
        (some "https://youtu.be/abcdefghijk")
        (writebackStatus (decideHistory rowFailed "0" "downloads"))
        (decideHistory rowFailed "0" "downloads").increment_retry
        (decideHistory rowFailed "0" "downloads").action dbFailed =
        .ok { dbFailed with table := some ([] ++ r'' :: []) } ∧
      r''.status = rowFailed.status ∧
      r''.retry_count = rowFailed.retry_count ∧
      r''.last_action = some "skip") :=
  decision_restart_writeback rowFailed rowFailed (some "yt:abcdefghijk")
    (some "https://youtu.be/abcdefghijk") dbFailed [] [] "downloads"
    rfl rfl rfl (by decide)
    (fun x hx => absurd hx (List.not_mem_nil x))
    (fun x hx => absurd hx (List.not_mem_nil x))

/-! ### Claim C8 -/

/-- C8.  Import timestamp derivation: the completion timestamp tries, in
order, `epoch`, `timestamp`, `release_timestamp` and `upload_date`,
taking the first that parses; numeric values are read as Unix epoch
seconds (through `fromtimestamp`); and importing a line with
`upload_date = "20240511"` and no other timestamp field yields a record
whose `finished_at` is the ISO form of that calendar date. -/
theorem import_timestamp_derivation :
    (∀ (fromTs : Int → Option String) (data : List (String × JVal)),
      deriveFinishedAt fromTs data =
        (let e1 := extractTimestamp fromTs (jGet data "epoch")
        if pyTruthy e1 then e1 else
        let e2 := extractTimestamp fromTs (jGet data "timestamp")
        if pyTruthy e2 then e2 else
        let e3 := extractTimestamp fromTs (jGet data "release_timestamp")
        if pyTruthy e3 then e3 else
        extractTimestamp fromTs (jGet data "upload_date"))) ∧
    (∀ (fromTs : Int → Option String) (n : Int),
      extractTimestamp fromTs (some (JVal.jnum n)) = fromTs n) ∧
    (∀ fromTs : Int → Option String,
      extractTimestamp fromTs (some (JVal.jstr "20240511")) =
        some "2024-05-11T00:00:00") ∧
    import_from_jsonl fromTsNone (some importFixtureLines) dbEmpty =
      .ok (1, ⟨some "history.db", some [importedFixtureRow]⟩) := by
  refine ⟨fun fromTs data => rfl, fun fromTs n => rfl, fun fromTs => ?_, by decide⟩
  rfl

/-! ### Claim C9 -/

/-- Counterexample to C9 as stated: with `_DB_PATH` never initialized,
`fetch_download` with no key returns `None`, `update_download` with no
key returns normally, and `import_from_jsonl` on a missing path returns
0 — each before ever touching storage — so not every argument value
makes these operations raise. -/
theorem uninitialized_counterexample :
    fetch_download none none ⟨none, none⟩ = .ok none ∧
    update_download none none (some "in_progress") true (some "restart")
      ⟨none, none⟩ = .ok ⟨none, none⟩ ∧
    import_from_jsonl fromTsNone none ⟨none, none⟩ = .ok (0, ⟨none, none⟩) := by
  decide

/-- C9 (amended).  With the storage path never initialized, every Event
Store operation raises as soon as it would touch storage:
`ensure_schema`, `record_event` and `list_downloads` always;
`fetch_download` and `update_download` whenever a truthy key is
supplied (with no key they return `None`/no-op first); and
`import_from_jsonl` whenever the source path exists (a missing path
returns 0 first). -/
theorem uninitialized_store_raises (db : HistoryDB) (h : db.dbPath = none) :
    (∃ m, ensure_schema db = .error m) ∧
    (∀ e, ∃ m, record_event e db = .error m) ∧
    (∀ vid url, (pyTruthy vid || pyTruthy url) = true →
      ∃ m, fetch_download vid url db = .error m) ∧
    (∀ vid url st ri la, (pyTruthy vid || pyTruthy url) = true →
      ∃ m, update_download vid url st ri la db = .error m) ∧
    (∀ sts lim since pid, ∃ m, list_downloads sts lim since pid db = .error m) ∧
    (∀ fromTs lines, ∃ m, import_from_jsonl fromTs (some lines) db = .error m) := by
  have hc : get_connection db =
      .error "database path is not initialized; call init_db() first" := by
    unfold get_connection
    rw [h]
  have hes : ensure_schema db =
      .error "database path is not initialized; call init_db() first" := by
    unfold ensure_schema
    rw [hc]
  have hkey : ∀ vid url : Option String, (pyTruthy vid || pyTruthy url) = true →
      (!pyTruthy vid && !pyTruthy url) = false := by
    intro vid url hvu
    rcases Bool.or_eq_true_iff.mp hvu with h' | h' <;> simp [h']
  refine ⟨⟨_, hes⟩, ?_, ?_, ?_, ?_, ?_⟩
  · intro e
    refine ⟨"database path is not initialized; call init_db() first", ?_⟩
    unfold record_event
    rw [hes]
  · intro vid url hvu
    refine ⟨"database path is not initialized; call init_db() first", ?_⟩
    unfold fetch_download
    rw [hkey vid url hvu]
    show (match ensure_schema db with
      | .error err => .error err
      | .ok (_, db) =>
        .ok (pickFirst ((db.table.getD []).filter (rowMatches vid url)))) =
      Except.error _
    rw [hes]
  · intro vid url st ri la hvu
    refine ⟨"database path is not initialized; call init_db() first", ?_⟩
    unfold update_download
    rw [hkey vid url hvu]
    show (match ensure_schema db with
      | .error err => .error err
      | .ok (_, db) => _) = Except.error _
    rw [hes]
  · intro sts lim since pid
    refine ⟨"database path is not initialized; call init_db() first", ?_⟩
    unfold list_downloads
    rw [hes]
  · intro fromTs lines
    refine ⟨"database path is not initialized; call init_db() first", ?_⟩
    unfold import_from_jsonl
    rw [hc]

/-- Witness for (the amended) C9 at the concrete uninitialized state. -/
theorem uninitialized_store_raises_witness :
    (∃ m, ensure_schema ⟨none, none⟩ = .error m) ∧
    (∀ e, ∃ m, record_event e ⟨none, none⟩ = .error m) ∧
    (∀ vid url, (pyTruthy vid || pyTruthy url) = true →
      ∃ m, fetch_download vid url ⟨none, none⟩ = .error m) ∧
    (∀ vid url st ri la, (pyTruthy vid || pyTruthy url) = true →
      ∃ m, update_download vid url st ri la ⟨none, none⟩ = .error m) ∧
    (∀ sts lim since pid, ∃ m,
      list_downloads sts lim since pid ⟨none, none⟩ = .error m) ∧
    (∀ fromTs lines, ∃ m,
      import_from_jsonl fromTs (some lines) ⟨none, none⟩ = .error m) :=
  uninitialized_store_raises ⟨none, none⟩ rfl

/-! ### Lemmas about stripping -/

/-- The head surviving a `dropWhile` fails the predicate. -/
theorem dropWhile_head_false (p : Char → Bool) :
    ∀ (l : List Char) (c : Char) (cs : List Char),
      l.dropWhile p = c :: cs → p c = false := by
  intro l
  induction l with
  | nil => intro c cs h; cases h
  | cons a as ih =>
    intro c cs h
    by_cases hp : p a = true
    · rw [List.dropWhile_cons_of_pos hp] at h
      exact ih c cs h
    · rw [List.dropWhile_cons_of_neg hp] at h
      cases h
      exact Bool.eq_false_iff.mpr hp

/-- `dropWhile` is idempotent. -/
theorem dropWhile_idem (p : Char → Bool) (l : List Char) :
    (l.dropWhile p).dropWhile p = l.dropWhile p := by
  cases hd : l.dropWhile p with
  | nil => rfl
  | cons c cs =>
    rw [List.dropWhile_cons_of_neg]
    rw [dropWhile_head_false p l c cs hd]
    simp

/-- A list all of whose members fail the predicate is untouched by
`dropWhile`. -/
theorem dropWhile_eq_self_of_all (p : Char → Bool) :
    ∀ l : List Char, (∀ c ∈ l, p c = false) → l.dropWhile p = l := by
  intro l
  induction l with
  | nil => intro _; rfl
  | cons a as _ =>
    intro h
    rw [List.dropWhile_cons_of_neg]
    rw [h a (List.mem_cons_self a as)]
    simp

/-- `dropWhile` produces a suffix. -/
theorem dropWhile_is_drop (p : Char → Bool) :
    ∀ l : List Char, ∃ u, l = u ++ l.dropWhile p := by
  intro l
  induction l with
  | nil => exact ⟨[], rfl⟩
  | cons a as ih =>
    by_cases hp : p a = true
    · obtain ⟨u, hu⟩ := ih
      rw [List.dropWhile_cons_of_pos hp]
      exact ⟨a :: u, by rw [List.cons_append, ← hu]⟩
    · rw [List.dropWhile_cons_of_neg hp]
      exact ⟨[], rfl⟩

/-- A list none of whose members is whitespace is untouched by
`str.strip()`. -/
theorem pyStrip_eq_self_of_all (l : List Char)
    (h : ∀ c ∈ l, isPySpace c = false) : pyStrip l = l := by
  unfold pyStrip
  rw [dropWhile_eq_self_of_all isPySpace l h,
    dropWhile_eq_self_of_all isPySpace l.reverse
      (fun c hc => h c (List.mem_reverse.mp hc)),
    List.reverse_reverse]

/-- A list whose head (if any) fails the predicate is untouched by
`dropWhile`. -/
theorem dropWhile_eq_self_of_head (p : Char → Bool) (l : List Char)
    (h : ∀ c cs, l = c :: cs → p c = false) : l.dropWhile p = l := by
  cases l with
  | nil => rfl
  | cons a as =>
    rw [List.dropWhile_cons_of_neg]
    rw [h a as rfl]
    simp

/-- `str.strip()` is idempotent. -/
theorem pyStrip_idem (l : List Char) : pyStrip (pyStrip l) = pyStrip l := by
  unfold pyStrip
  set A := l.dropWhile isPySpace with hA
  set B := A.reverse.dropWhile isPySpace with hB
  have h1 : B.reverse.dropWhile isPySpace = B.reverse := by
    cases hBc : B with
    | nil => rfl
    | cons b bs =>
      refine dropWhile_eq_self_of_head isPySpace _ ?_
      intro c cs hc
      have hBne : B ≠ [] := by rw [hBc]; exact List.cons_ne_nil b bs
      obtain ⟨u, hu⟩ := dropWhile_is_drop isPySpace A.reverse
      have hAne : A ≠ [] := by
        intro hAnil
        apply hBne
        rw [hB, hAnil]
        rfl
      obtain ⟨a, as, hAc⟩ := List.exists_cons_of_ne_nil hAne
      have hpa : isPySpace a = false := by
        refine dropWhile_head_false isPySpace l a as ?_
        rw [← hA]
        exact hAc
      have hne2 : A.reverse.dropWhile isPySpace ≠ [] := by
        rw [← hB]
        exact hBne
      have hhead : B.reverse.head? = some a := by
        rw [List.head?_reverse, hB, ← List.getLast?_append_of_ne_nil u hne2,
          ← hu, List.getLast?_reverse, hAc]
        rfl
      rw [hBc, hc] at hhead
      simp only [List.head?_cons, Option.some.injEq] at hhead
      rw [hhead]
      exact hpa
  rw [h1, List.reverse_reverse, hB, dropWhile_idem]

/-! ### Lemmas about platform-ID extraction -/

/-- A matched capture group is 11 ID characters. -/
theorem takeId_sound (l i : List Char) (h : takeId l = some i) :
    i.length = 11 ∧ i.all isIdChar = true := by
  unfold takeId at h
  by_cases hc : ((l.take 11).length = 11 && (l.take 11).all isIdChar) = true
  · rw [if_pos hc] at h
    cases h
    have := Bool.and_eq_true_iff.mp hc
    exact ⟨by have := this.1; simpa using this, this.2⟩
  · rw [if_neg hc] at h
    cases h

/-- Whatever `searchVQ` finds came from a capture group. -/
theorem searchVQ_sound (l i : List Char) (h : searchVQ l = some i) :
    ∃ t, takeId t = some i := by
  induction l with
  | nil => cases h
  | cons c rest ih =>
    unfold searchVQ at h
    by_cases hc : (c == '?' || c == '&') = true
    · rw [if_pos hc] at h
      cases rest with
      | nil => exact ih h
      | cons v rest2 =>
        cases rest2 with
        | nil => exact ih h
        | cons e tail =>
          have h' : (if (v == 'v' && e == '=') = true then
              (match takeId tail with
               | some j => some j
               | none => searchVQ (v :: e :: tail))
              else searchVQ (v :: e :: tail)) = some i := h
          by_cases hv : (v == 'v' && e == '=') = true
          · rw [if_pos hv] at h'
            revert h'
            cases ht : takeId tail with
            | some j => intro h'; cases h'; exact ⟨tail, ht⟩
            | none => intro h'; exact ih h'
          · rw [if_neg hv] at h'
            exact ih h'
    · rw [if_neg hc] at h
      exact ih h

/-- Whatever `searchLitId` finds came from a capture group. -/
theorem searchLitId_sound (lit : List Char) (l i : List Char)
    (h : searchLitId lit l = some i) : ∃ t, takeId t = some i := by
  induction l with
  | nil => cases h
  | cons c rest ih =>
    unfold searchLitId at h
    by_cases hc : lit.isPrefixOf (c :: rest) = true
    · rw [if_pos hc] at h
      revert h
      cases ht : takeId ((c :: rest).drop lit.length) with
      | some j => intro h; cases h; exact ⟨_, ht⟩
      | none => intro h; exact ih h
    · rw [if_neg hc] at h
      exact ih h

/-- Whatever the alternation tail finds came from a capture group. -/
theorem altTail_sound (l i : List Char) (h : altTail l = some i) :
    ∃ t, takeId t = some i := by
  unfold altTail at h
  by_cases h1 : ("shorts/".toList).isPrefixOf l = true
  · rw [if_pos h1] at h; exact ⟨_, h⟩
  · rw [if_neg h1] at h
    by_cases h2 : ("embed/".toList).isPrefixOf l = true
    · rw [if_pos h2] at h; exact ⟨_, h⟩
    · rw [if_neg h2] at h
      by_cases h3 : ("live/".toList).isPrefixOf l = true
      · rw [if_pos h3] at h; exact ⟨_, h⟩
      · rw [if_neg h3] at h; cases h

/-- Whatever `searchTube` finds came from a capture group. -/
theorem searchTube_sound (l i : List Char) (h : searchTube l = some i) :
    ∃ t, takeId t = some i := by
  induction l with
  | nil => cases h
  | cons c rest ih =>
    unfold searchTube at h
    by_cases hc : ("youtube.com/".toList).isPrefixOf (c :: rest) = true
    · rw [if_pos hc] at h
      revert h
      cases ht : altTail ((c :: rest).drop 12) with
      | some j => intro h; cases h; exact altTail_sound _ _ ht
      | none => intro h; exact ih h
    · rw [if_neg hc] at h
      exact ih h

/-- An extracted platform ID is 11 ID characters. -/
theorem extract_id_valid (l i : List Char)
    (h : extractYoutubeId l = some i) : i.length = 11 ∧ i.all isIdChar = true := by
  unfold extractYoutubeId at h
  by_cases he : l.isEmpty = true
  · rw [if_pos he] at h; cases h
  · rw [if_neg he] at h
    by_cases hf : ((pyStrip l).length = 11 && (pyStrip l).all isIdChar) = true
    · rw [if_pos hf] at h
      cases h
      have := Bool.and_eq_true_iff.mp hf
      exact ⟨by have := this.1; simpa using this, this.2⟩
    · rw [if_neg hf] at h
      revert h
      cases h1 : searchVQ (pyStrip l) with
      | some j => intro h; cases h; exact
          (fun ⟨t, ht⟩ => takeId_sound t _ ht) (searchVQ_sound _ _ h1)
      | none =>
        cases h2 : searchLitId ("youtu.be/".toList) (pyStrip l) with
        | some j => intro h; cases h; exact
            (fun ⟨t, ht⟩ => takeId_sound t _ ht) (searchLitId_sound _ _ _ h2)
        | none =>
          intro h
          exact (fun ⟨t, ht⟩ => takeId_sound t _ ht) (searchTube_sound _ _ h)

/-- Membership passes through `isPrefixOf`. -/
theorem isPrefixOf_mem :
    ∀ (u v : List Char), u.isPrefixOf v = true → ∀ x ∈ u, x ∈ v := by
  intro u
  induction u with
  | nil => intro v _ x hx; cases hx
  | cons a as ih =>
    intro v h x hx
    cases v with
    | nil => cases h
    | cons b bs =>
      rw [show ((a :: as).isPrefixOf (b :: bs)) = (a == b && as.isPrefixOf bs)
        from rfl] at h
      have h' := Bool.and_eq_true_iff.mp h
      rcases List.mem_cons.mp hx with hax | hax
      · rw [hax, beq_iff_eq.mp h'.1]
        exact List.mem_cons_self b bs
      · exact List.mem_cons_of_mem b (ih bs h'.2 x hax)

/-- Two characters on opposite sides of the ID character class differ. -/
theorem isIdChar_ne (c d : Char) (hc : isIdChar c = true)
    (hd : isIdChar d = false) : c ≠ d := by
  intro h
  rw [h, hd] at hc
  cases hc

/-- ID characters are not whitespace. -/
theorem isIdChar_not_space (c : Char) (h : isIdChar c = true) :
    isPySpace c = false := by
  cases hsp : isPySpace c with
  | false => rfl
  | true =>
    exfalso
    unfold isPySpace at hsp
    rcases Bool.or_eq_true_iff.mp hsp with h1 | h1
    · rcases Bool.or_eq_true_iff.mp h1 with h2 | h2
      · rcases Bool.or_eq_true_iff.mp h2 with h3 | h3
        · rcases Bool.or_eq_true_iff.mp h3 with h4 | h4
          · rcases Bool.or_eq_true_iff.mp h4 with h5 | h5
            · rw [beq_iff_eq.mp h5] at h
              exact absurd h (by decide)
            · rw [beq_iff_eq.mp h5] at h
              exact absurd h (by decide)
          · rw [beq_iff_eq.mp h4] at h
            exact absurd h (by decide)
        · rw [beq_iff_eq.mp h3] at h
          exact absurd h (by decide)
      · rw [beq_iff_eq.mp h2] at h
        exact absurd h (by decide)
    · rw [beq_iff_eq.mp h1] at h
      exact absurd h (by decide)

/-- `searchVQ` finds nothing in a string with no `?` or `&`. -/
theorem searchVQ_none (l : List Char)
    (h : ∀ x ∈ l, (x == '?' || x == '&') = false) : searchVQ l = none := by
  induction l with
  | nil => rfl
  | cons c rest ih =>
    unfold searchVQ
    rw [if_neg (by rw [h c (List.mem_cons_self c rest)]; simp)]
    exact ih fun x hx => h x (List.mem_cons_of_mem _ hx)

/-- A `searchLitId` match forces every literal character into the
haystack. -/
theorem searchLitId_mem (lit : List Char) :
    ∀ (l i : List Char), searchLitId lit l = some i → ∀ x ∈ lit, x ∈ l := by
  intro l
  induction l with
  | nil => intro i h; cases h
  | cons c rest ih =>
    intro i h x hx
    unfold searchLitId at h
    by_cases hp : lit.isPrefixOf (c :: rest) = true
    · rw [if_pos hp] at h
      exact isPrefixOf_mem lit (c :: rest) hp x hx
    · rw [if_neg hp] at h
      exact List.mem_cons_of_mem c (ih i h x hx)

/-- A `searchTube` match forces every character of `youtube.com/` into
the haystack. -/
theorem searchTube_mem :
    ∀ (l i : List Char), searchTube l = some i →
      ∀ x ∈ ("youtube.com/".toList), x ∈ l := by
  intro l
  induction l with
  | nil => intro i h; cases h
  | cons c rest ih =>
    intro i h x hx
    unfold searchTube at h
    by_cases hp : ("youtube.com/".toList).isPrefixOf (c :: rest) = true
    · rw [if_pos hp] at h
      exact isPrefixOf_mem _ (c :: rest) hp x hx
    · rw [if_neg hp] at h
      exact List.mem_cons_of_mem c (ih i h x hx)

/-- Character facts about a stored `yt:<id>` key. -/
theorem yt_key_chars (i : List Char) (hall : i.all isIdChar = true) :
    (∀ x ∈ ('y' :: 't' :: ':' :: i), isPySpace x = false) ∧
    (∀ x ∈ ('y' :: 't' :: ':' :: i), (x == '?' || x == '&') = false) ∧
    ¬('.' ∈ ('y' :: 't' :: ':' :: i)) := by
  have hid : ∀ x ∈ i, isIdChar x = true := List.all_eq_true.mp hall
  refine ⟨?_, ?_, ?_⟩
  · intro x hx
    rcases List.mem_cons.mp hx with rfl | hx
    · decide
    rcases List.mem_cons.mp hx with rfl | hx
    · decide
    rcases List.mem_cons.mp hx with rfl | hx
    · decide
    exact isIdChar_not_space x (hid x hx)
  · intro x hx
    rcases List.mem_cons.mp hx with rfl | hx
    · decide
    rcases List.mem_cons.mp hx with rfl | hx
    · decide
    rcases List.mem_cons.mp hx with rfl | hx
    · decide
    have hxq : x ≠ '?' := isIdChar_ne x '?' (hid x hx) (by decide)
    have hxa : x ≠ '&' := isIdChar_ne x '&' (hid x hx) (by decide)
    rw [beq_eq_false_iff_ne.mpr hxq, beq_eq_false_iff_ne.mpr hxa]
    rfl
  · intro hdot
    rcases List.mem_cons.mp hdot with hd | hdot
    · exact absurd hd (by decide)
    rcases List.mem_cons.mp hdot with hd | hdot
    · exact absurd hd (by decide)
    rcases List.mem_cons.mp hdot with hd | hdot
    · exact absurd hd (by decide)
    have := hid '.' hdot
    exact absurd this (by decide)

/-- Platform-ID extraction finds nothing in a stored `yt:<id>` key. -/
theorem extract_yt_key_none (i : List Char) (hlen : i.length = 11)
    (hall : i.all isIdChar = true) :
    extractYoutubeId ('y' :: 't' :: ':' :: i) = none := by
  obtain ⟨hspace, hqa, hdot⟩ := yt_key_chars i hall
  unfold extractYoutubeId
  rw [if_neg (by simp)]
  rw [pyStrip_eq_self_of_all _ hspace]
  rw [if_neg (by simp [hlen])]
  rw [searchVQ_none _ hqa]
  cases hlit : searchLitId ("youtu.be/".toList) ('y' :: 't' :: ':' :: i) with
  | some j =>
    exact absurd (searchLitId_mem _ _ j hlit '.' (by decide)) hdot
  | none =>
    cases htube : searchTube ('y' :: 't' :: ':' :: i) with
    | some j =>
      exact absurd (searchTube_mem _ j htube '.' (by decide)) hdot
    | none => rfl

/-- URL normalization rejects a stored `yt:<id>` key: `yt` parses as a
scheme, leaving no network location. -/
theorem normalizeUrl_yt_key_none (i : List Char) (hlen : i.length = 11)
    (hall : i.all isIdChar = true) :
    normalizeUrl ('y' :: 't' :: ':' :: i) = none := by
  obtain ⟨hspace, _, hdot⟩ := yt_key_chars i hall
  have hdotc : ('y' :: 't' :: ':' :: i).contains '.' = false := by
    cases hc : ('y' :: 't' :: ':' :: i).contains '.' with
    | false => rfl
    | true => exact absurd (by simpa using hc) hdot
  have hsplit : splitAtFirst ':' ('y' :: 't' :: ':' :: i) = (['y', 't'], some i) := rfl
  have hscheme : splitScheme ('y' :: 't' :: ':' :: i) = (some ['y', 't'], i) := by
    unfold splitScheme
    rw [hsplit]
    rfl
  have htake : ¬(i.take 2 = ['/', '/']) := by
    intro hteq
    have hmem : '/' ∈ i :=
      List.take_subset 2 i (by rw [hteq]; exact List.mem_cons_self _ _)
    have := List.all_eq_true.mp hall '/' hmem
    exact absurd this (by decide)
  have hparse : (pyUrlparse ('y' :: 't' :: ':' :: i)).netloc = [] := by
    unfold pyUrlparse
    rw [hscheme]
    simp only [if_neg htake]
  unfold normalizeUrl
  rw [if_neg (by simp)]
  rw [pyStrip_eq_self_of_all _ hspace]
  rw [if_neg (by simp)]
  rw [hdotc]
  simp only [Bool.and_false, Bool.false_eq_true, if_false]
  rw [hparse]
  rfl

/-- `normalize_history_id` on a present value, reduced. -/
theorem normalize_some (s : String) : normalize_history_id (some s) =
    (if s = "" then none
    else
      let candidate := pyStrip s.toList
      if candidate.isEmpty then none
      else
        match extractYoutubeId candidate with
        | some i => some (String.mk ('y' :: 't' :: ':' :: i))
        | none =>
          match normalizeUrl candidate with
          | some u => some (String.mk u)
          | none => some (String.mk candidate)) := rfl

/-- When extraction succeeds on the stripped input, normalization
returns the `yt:<id>` key (URL normalization is never consulted). -/
theorem normalize_of_extract (s : String) (i : List Char)
    (h : extractYoutubeId (pyStrip s.toList) = some i) :
    normalize_history_id (some s) = some (String.mk ('y' :: 't' :: ':' :: i)) := by
  have hs : ¬(s = "") := by
    intro hs
    rw [hs] at h
    cases h
  rw [normalize_some, if_neg hs]
  cases hcand : pyStrip s.toList with
  | nil =>
    rw [hcand] at h
    cases h
  | cons c cs =>
    rw [hcand] at h
    simp [h]

/-- A stored `yt:<id>` key is a fixed point of normalization. -/
theorem normalize_yt_fixed (i : List Char) (hlen : i.length = 11)
    (hall : i.all isIdChar = true) :
    normalize_history_id (some (String.mk ('y' :: 't' :: ':' :: i))) =
      some (String.mk ('y' :: 't' :: ':' :: i)) := by
  obtain ⟨hspace, _, _⟩ := yt_key_chars i hall
  have hne : ¬(String.mk ('y' :: 't' :: ':' :: i) = "") := by
    intro hc
    have hdata := congrArg String.data hc
    cases hdata
  rw [normalize_some, if_neg hne]
  rw [show (String.mk ('y' :: 't' :: ':' :: i)).toList = 'y' :: 't' :: ':' :: i
    from rfl]
  rw [pyStrip_eq_self_of_all _ hspace]
  simp only [extract_yt_key_none i hlen hall,
    normalizeUrl_yt_key_none i hlen hall, List.isEmpty_cons, Bool.false_eq_true,
    if_false]

/-! ### Claim C6 -/

/-- C6.  Platform-ID cosmetic invariance: any two strings from which the
recognized URL shapes extract the same 11-character platform ID
normalize to the same `yt:<id>` key, regardless of any other cosmetic
difference between them, and the extraction verdict alone determines the
key (URL normalization is not consulted). -/
theorem platform_cosmetic_invariance (s₁ s₂ : String) (i : List Char)
    (h₁ : extractYoutubeId (pyStrip s₁.toList) = some i)
    (h₂ : extractYoutubeId (pyStrip s₂.toList) = some i) :
    normalize_history_id (some s₁) = some (String.mk ('y' :: 't' :: ':' :: i)) ∧
    normalize_history_id (some s₂) = some (String.mk ('y' :: 't' :: ':' :: i)) ∧
    normalize_history_id (some s₁) = normalize_history_id (some s₂) := by
  refine ⟨normalize_of_extract s₁ i h₁, normalize_of_extract s₂ i h₂, ?_⟩
  rw [normalize_of_extract s₁ i h₁, normalize_of_extract s₂ i h₂]

/-- Witness for C6: the watch-parameter form with an unrelated query
parameter and the short-link form with a trailing slash. -/
theorem platform_cosmetic_invariance_witness :
    normalize_history_id (some "https://www.youtube.com/watch?v=abcdefghijk&t=5s") =
      some (String.mk ('y' :: 't' :: ':' :: "abcdefghijk".toList)) ∧
    normalize_history_id (some "https://youtu.be/abcdefghijk/") =
      some (String.mk ('y' :: 't' :: ':' :: "abcdefghijk".toList)) ∧
    normalize_history_id (some "https://www.youtube.com/watch?v=abcdefghijk&t=5s") =
      normalize_history_id (some "https://youtu.be/abcdefghijk/") :=
  platform_cosmetic_invariance "https://www.youtube.com/watch?v=abcdefghijk&t=5s"
    "https://youtu.be/abcdefghijk/" ("abcdefghijk".toList) (by decide) (by decide)

/-! ### Claim C3 -/

/-- Counterexample to C3 as stated: normalization is not idempotent.
Collapsing the duplicate slash in `https://youtu.be//abcdefghijk`
produces a normalized URL from which a second normalization extracts the
platform ID, yielding a different key. -/
theorem normalize_idempotent_counterexample :
    normalize_history_id (normalize_history_id
        (some "https://youtu.be//abcdefghijk")) ≠
      normalize_history_id (some "https://youtu.be//abcdefghijk") ∧
    normalize_history_id (some "https://youtu.be//abcdefghijk") =
      some "https://youtu.be/abcdefghijk" ∧
    normalize_history_id (some "https://youtu.be/abcdefghijk") =
      some "yt:abcdefghijk" := by
  refine ⟨?_, by decide, by decide⟩
  decide

/-- C3 (amended).  Normalization is idempotent on every input that does
not take the normalized-URL branch: when platform-ID extraction succeeds
on the stripped input, or when URL normalization rejects it (so the
trimmed raw string is returned), a second normalization returns the same
key.  (On the normalized-URL branch idempotence can fail, as the
counterexample shows.) -/
theorem normalize_idempotent_amended (s : String)
    (h : (extractYoutubeId (pyStrip s.toList)).isSome = true ∨
      normalizeUrl (pyStrip s.toList) = none) :
    normalize_history_id (normalize_history_id (some s)) =
      normalize_history_id (some s) := by
  by_cases hs : s = ""
  · rw [hs]
    rfl
  cases hcand : pyStrip s.toList with
  | nil =>
    have h0 : normalize_history_id (some s) = none := by
      rw [normalize_some, if_neg hs, hcand]
      rfl
    rw [h0]
    rfl
  | cons c cs =>
    cases hext : extractYoutubeId (pyStrip s.toList) with
    | some i =>
      obtain ⟨hlen, hall⟩ := extract_id_valid _ _ hext
      rw [normalize_of_extract s i hext]
      exact normalize_yt_fixed i hlen hall
    | none =>
      rcases h with hsome | hurl
      · rw [hext] at hsome
        cases hsome
      rw [hcand] at hext hurl
      have h1 : normalize_history_id (some s) = some (String.mk (c :: cs)) := by
        rw [normalize_some, if_neg hs, hcand]
        simp [hext, hurl]
      rw [h1]
      have hne : ¬(String.mk (c :: cs) = "") := by
        intro hc
        have hdata := congrArg String.data hc
        cases hdata
      have hstrip2 : pyStrip (c :: cs) = c :: cs := by
        have hidem := pyStrip_idem s.toList
        rw [hcand] at hidem
        exact hidem
      rw [normalize_some, if_neg hne]
      rw [show (String.mk (c :: cs)).toList = c :: cs from rfl]
      rw [hstrip2]
      simp only [hext, hurl, List.isEmpty_cons, Bool.false_eq_true, if_false]

/-- Witness for (the amended) C3 at a concrete input on the extraction
branch. -/
theorem normalize_idempotent_amended_witness :
    ((extractYoutubeId (pyStrip ("https://youtu.be/abcdefghijk").toList)).isSome = true ∨
      normalizeUrl (pyStrip ("https://youtu.be/abcdefghijk").toList) = none) ∧
    normalize_history_id (normalize_history_id
        (some "https://youtu.be/abcdefghijk")) =
      normalize_history_id (some "https://youtu.be/abcdefghijk") :=
  ⟨Or.inl (by decide),
    normalize_idempotent_amended "https://youtu.be/abcdefghijk" (Or.inl (by decide))⟩

end Ytd
